import Mathlib

/-!
Verification development for the pos-sync-service reconciliation engine.

We embed the JavaScript source shallowly: JS primitive values become the
inductive `JSVal` (strings, numbers as rationals, booleans, null, undefined);
multilingual objects, which occur only in the `name` / `description` /
`category` fields of raw remote products, become `NameVal` with primitive
field values.  Stateful reconciliation loops become folds over explicit
state records; the remote HTTP client becomes a function over scripted
call outcomes.  Floating-point numbers are modelled as rationals and the
`NaN` value as `Option` failure of the parse functions.
-/

/-- A JavaScript primitive value as it appears in remote rows and mirror rows. -/
inductive JSVal where
  | str (s : String)
  | num (q : Rat)
  | bool (b : Bool)
  | null
  | undefined
deriving DecidableEq

namespace JSVal

/-- JS truthiness for the modelled primitive values. -/
def truthy : JSVal → Bool
  | .str s => s ≠ ""
  | .num q => q ≠ 0
  | .bool b => b
  | .null => false
  | .undefined => false

end JSVal

/-- JS `a ?? b` (nullish coalescing). -/
def jsNullish (a b : JSVal) : JSVal :=
  if a = .null ∨ a = .undefined then b else a

/-- JS `a || b` on modelled values. -/
def jsOr (a b : JSVal) : JSVal :=
  if a.truthy then a else b

/-- JS `a && b` on modelled values. -/
def jsAnd (a b : JSVal) : JSVal :=
  if a.truthy then b else a

/-- Numeric value of a list of decimal digit characters. -/
def digitsVal (cs : List Char) : Nat :=
  cs.foldl (fun a c => a * 10 + (c.toNat - 48)) 0

/-- Kernel-computable rational product (`mkRat` normalizes). -/
def rMul (a b : Rat) : Rat :=
  mkRat (a.num * b.num) (a.den * b.den)

/-- Kernel-computable rational sum. -/
def rAdd (a b : Rat) : Rat :=
  mkRat (a.num * (b.den : Int) + b.num * (a.den : Int)) (a.den * b.den)

/-- Kernel-computable rational quotient (never applied at denominator 0 in
the verified paths). -/
def rDiv (a b : Rat) : Rat :=
  Rat.divInt (a.num * (b.den : Int)) ((a.den : Int) * b.num)

/-- JS whitespace trim over the character list of a string (the `trim`
calls of the source). -/
def trimChars (cs : List Char) : List Char :=
  ((cs.dropWhile Char.isWhitespace).reverse.dropWhile Char.isWhitespace).reverse

/-- JS `split(',')` over the character list of a string. -/
def splitOnComma : List Char → List (List Char)
  | [] => [[]]
  | c :: rest =>
      let r := splitOnComma rest
      if c = ',' then [] :: r
      else
        match r with
        | h :: t => (c :: h) :: t
        | [] => [[c]]

/-- JS `parseInt` on a string (decimal): skip whitespace, optional sign,
longest digit prefix; `none` models `NaN`.  Hexadecimal prefixes and
exponents are outside the modelled input domain. -/
def jsParseIntStr (s : String) : Option Int :=
  let core : List Char → Int → Option Int := fun l sign =>
    let ds := l.takeWhile Char.isDigit
    if ds.isEmpty then none else some (sign * (digitsVal ds : Int))
  match trimChars s.data with
  | '-' :: rest => core rest (-1)
  | '+' :: rest => core rest 1
  | cs => core cs 1

/-- JS `parseFloat` on a string: optional sign, digits, optional fraction;
`none` models `NaN`.  Exponent notation is outside the modelled domain. -/
def jsParseFloatStr (s : String) : Option Rat :=
  let core : List Char → Int → Option Rat := fun l sign =>
    let ds := l.takeWhile Char.isDigit
    let rest := l.drop ds.length
    let fs := match rest with
      | '.' :: r2 => r2.takeWhile Char.isDigit
      | _ => []
    if ds.isEmpty ∧ fs.isEmpty then none
    else some (Rat.divInt
      (sign * ((digitsVal ds : Int) * (10 : Int) ^ fs.length + (digitsVal fs : Int)))
      ((10 : Int) ^ fs.length))
  match trimChars s.data with
  | '-' :: rest => core rest (-1)
  | '+' :: rest => core rest 1
  | cs => core cs 1

/-- Truncation toward zero, as JS `parseInt` applied to a number. -/
def ratTrunc (q : Rat) : Int :=
  q.num.tdiv (q.den : Int)

/-- JS `parseFloat` on a modelled value (`none` = `NaN`). -/
def jsParseFloat : JSVal → Option Rat
  | .num q => some q
  | .str s => jsParseFloatStr s
  | _ => none

/-- JS `parseInt` on a modelled value (`none` = `NaN`). -/
def jsParseInt : JSVal → Option Int
  | .num q => some (ratTrunc q)
  | .str s => jsParseIntStr s
  | _ => none

/-- JS `parseX(v) || d` for numbers: `NaN` and `0` both fall back to `d`. -/
def jsOrNum (o : Option Rat) (d : Rat) : Rat :=
  match o with
  | some q => if q = 0 then d else q
  | none => d

/-- JS `parseInt(v) || d` for integers. -/
def jsOrInt (o : Option Int) (d : Int) : Int :=
  match o with
  | some n => if n = 0 then d else n
  | none => d

/-- The `normalizeActive` helper shared verbatim by the product and loyalty
change detectors: booleans and numbers collapse to a 0/1 bit, the strings
"true"/"1" and "false"/"0" are recognized, and everything else (which is
neither `=== false` nor `=== 0`) defaults to 1 (active). -/
def normalizeActive : JSVal → Int
  | .bool b => if b then 1 else 0
  | .num q => if q = 0 then 0 else 1
  | .str s => if s = "true" ∨ s = "1" then 1 else if s = "false" ∨ s = "0" then 0 else 1
  | .null => 1
  | .undefined => 1

/-- The tail of both change detectors: map `null`/`undefined` to `null`
before the strict comparison. -/
def nullWash (v : JSVal) : JSVal :=
  if v = .null ∨ v = .undefined then .null else v

/-- JS `String.prototype.toLowerCase` on the modelled (ASCII) strings. -/
def jsToLowerCase (s : String) : String :=
  ⟨s.data.map Char.toLower⟩

/-- A multilingual remote field: either a primitive value or a
locale-keyed object with primitive values. -/
inductive NameVal where
  | v (x : JSVal)
  | obj (fields : List (String × JSVal))
deriving DecidableEq

/-- JS property access on a modelled object: missing keys give `undefined`. -/
def objGet (fields : List (String × JSVal)) (k : String) : JSVal :=
  match fields.find? (fun kv => kv.1 = k) with
  | some kv => kv.2
  | none => .undefined

/-- JS `Object.values(o)[0]` on a modelled object. -/
def objFirst (fields : List (String × JSVal)) : JSVal :=
  match fields with
  | [] => .undefined
  | kv :: _ => kv.2

namespace ProductSync

/-- One raw product record as received from the remote system
(the `data` payload of `transformOdooProduct`). -/
structure RawProduct where
  product_id : JSVal
  id : JSVal
  template_id : JSVal
  barcode : JSVal
  name : NameVal
  description : NameVal
  list_price : JSVal
  stock : JSVal
  qty_available : JSVal
  category : NameVal
  tax_rate : JSVal
  active : JSVal
  template_active : JSVal
  product_active : JSVal
deriving DecidableEq

/-- `extractName`: plain strings pass through; objects try
`ar_001 || en_US || en || first value || 'Unknown'`; anything else
(including `null`, whose JS typeof is object but which is excluded
explicitly) becomes `'Unknown Product'`. -/
def extractName : NameVal → JSVal
  | .v (.str s) => .str s
  | .obj fields =>
      jsOr (objGet fields "ar_001") (jsOr (objGet fields "en_US")
        (jsOr (objGet fields "en") (jsOr (objFirst fields) (.str "Unknown"))))
  | .v _ => .str "Unknown Product"

/-- `extractCategory`: like `extractName` with locale order
`en_US || ar_001 || en` and fallback `'General'`. -/
def extractCategory : NameVal → JSVal
  | .v (.str s) => .str s
  | .obj fields =>
      jsOr (objGet fields "en_US") (jsOr (objGet fields "ar_001")
        (jsOr (objGet fields "en") (jsOr (objFirst fields) (.str "General"))))
  | .v _ => .str "General"

/-- The transformed (mirror-shaped) product produced by `transformOdooProduct`. -/
structure TransProd where
  id : JSVal
  template_id : JSVal
  barcode : JSVal
  name : JSVal
  description : JSVal
  list_price : JSVal
  stock : JSVal
  category : JSVal
  tax_rate : JSVal
  active : JSVal
deriving DecidableEq

/-- `transformOdooProduct`: id/template disambiguation by presence of
`product_id`, combined active flag, multilingual extraction and numeric
coercion with defaults. -/
def transformOdooProduct (data : RawProduct) : TransProd :=
  let pt : JSVal × JSVal :=
    if data.product_id ≠ .undefined ∧ data.product_id ≠ .null then
      (data.product_id, jsNullish data.template_id data.id)
    else
      (data.id, data.template_id)
  let isActive : JSVal :=
    if data.template_active ≠ .undefined ∧ data.product_active ≠ .undefined then
      jsAnd data.template_active data.product_active
    else if data.active ≠ .undefined then
      data.active
    else
      .bool true
  { id := jsNullish pt.1 .null
    template_id := jsNullish pt.2 .null
    barcode := jsNullish data.barcode .null
    name := extractName data.name
    description := extractName data.description
    list_price := .num (jsOrNum (jsParseFloat data.list_price) 0)
    stock := .num ((jsOrInt (jsParseInt (jsOr data.stock data.qty_available)) 0 : Int) : Rat)
    category := extractCategory data.category
    tax_rate := .num (jsOrNum (jsParseFloat data.tax_rate) (mkRat 3 20))
    active := isActive }

/-- A persisted mirror row of the `products` table (bookkeeping columns
`created_at` / `updated_at` carry no compared data and are omitted). -/
structure LocalRow where
  id : JSVal
  template_id : JSVal
  barcode : JSVal
  name : JSVal
  description : JSVal
  price : JSVal
  stock : JSVal
  category : JSVal
  tax_rate : JSVal
  active : JSVal
deriving DecidableEq

/-- The row written by `createProduct` for a transformed product. -/
def createdRow (p : TransProd) : LocalRow :=
  { id := jsNullish p.id .null
    template_id := jsNullish p.template_id .null
    barcode := jsNullish p.barcode .null
    name := jsNullish p.name (.str "Unknown Product")
    description := jsNullish p.description .null
    price := jsNullish p.list_price (.num 0)
    stock := jsNullish p.stock (.num 0)
    category := jsNullish p.category (.str "General")
    tax_rate := jsNullish p.tax_rate (.num (mkRat 3 20))
    active := .num (if p.active = .bool false then 0 else 1) }

/-- The row written by `updateProduct` over an existing row (the primary
key is the existing row's id; all other columns are overwritten). -/
def updatedRow (p : TransProd) (old : LocalRow) : LocalRow :=
  { createdRow p with id := old.id }

/-- Normalization classes of the product comparison table. -/
inductive PNorm where
  | raw
  | act
  | int
  | numb
deriving DecidableEq

/-- Apply a normalization class as `hasChanges` does: `int` uses default
`null`, `numb` uses default `0`. -/
def applyNorm : PNorm → JSVal → JSVal
  | .raw, v => v
  | .act, v => .num (normalizeActive v)
  | .int, v =>
      match jsParseInt v with
      | some n => .num (n : Rat)
      | none => .null
  | .numb, v =>
      match jsParseFloat v with
      | some q => .num q
      | none => .num 0

/-- One entry of the product field-comparison table. -/
structure PField where
  op : TransProd → JSVal
  lp : LocalRow → JSVal
  norm : PNorm

/-- The `fieldsToCompare` table of the product `hasChanges`. -/
def prodFields : List PField :=
  [ ⟨TransProd.template_id, LocalRow.template_id, .int⟩
  , ⟨TransProd.name, LocalRow.name, .raw⟩
  , ⟨TransProd.description, LocalRow.description, .raw⟩
  , ⟨TransProd.barcode, LocalRow.barcode, .raw⟩
  , ⟨TransProd.list_price, LocalRow.price, .numb⟩
  , ⟨TransProd.stock, LocalRow.stock, .int⟩
  , ⟨TransProd.category, LocalRow.category, .raw⟩
  , ⟨TransProd.tax_rate, LocalRow.tax_rate, .numb⟩
  , ⟨TransProd.active, LocalRow.active, .act⟩ ]

/-- Whether one table entry reports a mismatch between the transformed
product and the mirror row. -/
def fieldMismatch (p : TransProd) (l : LocalRow) (f : PField) : Bool :=
  nullWash (applyNorm f.norm (f.op p)) ≠ nullWash (applyNorm f.norm (f.lp l))

/-- `ProductSyncService.hasChanges`: true on the first field mismatch. -/
def hasChanges (p : TransProd) (l : LocalRow) : Bool :=
  prodFields.any (fieldMismatch p l)

/-- Per-pass product sync counters. -/
structure ProdStats where
  created : Nat
  updated : Nat
  skipped : Nat
  unchanged : Nat
  errors : Nat
deriving DecidableEq

def zeroStats : ProdStats := ⟨0, 0, 0, 0, 0⟩

/-- The in-memory mirror snapshot keyed by product id
(JS `Map` keys compare by SameValueZero, structural on primitives). -/
abbrev Mirror := List (JSVal × LocalRow)

def lookupRow (m : Mirror) (k : JSVal) : Option LocalRow :=
  match m.find? (fun kv => kv.1 = k) with
  | some kv => some kv.2
  | none => none

def insertRow (m : Mirror) (k : JSVal) (r : LocalRow) : Mirror :=
  m ++ [(k, r)]

def replaceRow (m : Mirror) (k : JSVal) (r : LocalRow) : Mirror :=
  m.map (fun kv => if kv.1 = k then (kv.1, r) else kv)

/-- Mirror + stats state threaded through one `syncAllProducts` pass. -/
structure PState where
  mirror : Mirror
  stats : ProdStats
deriving DecidableEq

/-- The body of the `syncAllProducts` loop for one raw remote product:
transform, skip on missing id, skip on missing template_id, then
create / update / leave unchanged by the change detector's verdict. -/
def syncStep (st : PState) (raw : RawProduct) : PState :=
  let p := transformOdooProduct raw
  if ¬ p.id.truthy then
    { st with stats := { st.stats with skipped := st.stats.skipped + 1 } }
  else if ¬ p.template_id.truthy then
    { st with stats := { st.stats with skipped := st.stats.skipped + 1 } }
  else
    match lookupRow st.mirror p.id with
    | some row =>
        if hasChanges p row then
          { mirror := replaceRow st.mirror p.id (updatedRow p row)
            stats := { st.stats with updated := st.stats.updated + 1 } }
        else
          { st with stats := { st.stats with unchanged := st.stats.unchanged + 1 } }
    | none =>
        { mirror := insertRow st.mirror p.id (createdRow p)
          stats := { st.stats with created := st.stats.created + 1 } }

/-- `syncAllProducts` over a fixed remote dataset and mirror snapshot:
stats are reset at the start of the pass, then every remote product is
processed in order.  Per-entity persistence failures are outside the
modelled environment (every mirror write succeeds). -/
def syncAllProducts (odoo : List RawProduct) (m : Mirror) : PState :=
  odoo.foldl syncStep ⟨m, zeroStats⟩

end ProductSync

namespace LoyaltySync

/-- Canonical sorted ascending, comma-joined rendering of a deduplicated
id list, as produced by `[...set].sort((a, b) => a - b).join(',')`. -/
def canonicalJoin (s : List Int) : String :=
  String.intercalate "," ((List.insertionSort (· ≤ ·) s).map (fun n => toString n))

/-- The ids parsed out of a comma-separated string by
`normalizeProductIds`: split, trim, drop empty segments, `parseInt`,
drop `NaN`s. -/
def parsedIds (s : String) : List Int :=
  (((splitOnComma s.data).map (fun cs => (⟨trimChars cs⟩ : String))).filter
      (fun t => t ≠ "")).filterMap jsParseIntStr

/-- Sorted, deduplicated id list (`[...new Set(ids)].sort((a, b) => a - b)`). -/
def sortedDedup (l : List Int) : List Int :=
  List.insertionSort (· ≤ ·) l.dedup

/-- `LoyaltySyncService.normalizeProductIds`: falsy or empty input gives
the empty string; a string is split, trimmed, parsed, deduplicated,
sorted ascending and re-joined.  (A truthy non-string input would raise
a `TypeError` in JS and is outside the verified paths.) -/
def normalizeProductIds : JSVal → String
  | .str s =>
      if s = "" then ""
      else String.intercalate "," ((sortedDedup (parsedIds s)).map (fun n => toString n))
  | _ => ""

/-- One eligible or main product reference inside a raw loyalty row. -/
structure EProd where
  id : Int
deriving DecidableEq

/-- One raw loyalty row from the remote export (one row per eligible item
per program).  Numeric remote fields are modelled at their numeric values
with `0` for a missing (falsy) field; the entries of `eligible_products`
may be `null` (`none`). -/
structure LoyRow where
  program_id : Int
  name : JSVal
  promotion_type : String
  type : String
  active : JSVal
  rule_active : JSVal
  rule_id : Int
  buy_quantity : Int
  free_quantity : Int
  reward_quantity : Int
  min_quantity : Int
  discount_percent : Rat
  discount_amount : Rat
  after_discount : Rat
  total_price : Rat
  loyalty_program_total_price : Rat
  loyalty_program_after_discount : Rat
  loyalty_program_discount : Rat
  loyalty_program_minimum_qty : Int
  main_product : Option EProd
  eligible_products : List (Option EProd)
deriving DecidableEq

/-- JS `a || b` for the modelled string fields ("" is falsy). -/
def sOr (a b : String) : String :=
  if a = "" then b else a

/-- JS `a || b` for the modelled numeric fields (0 is falsy). -/
def rOr (a b : Rat) : Rat :=
  if a = 0 then b else a

def iOr (a b : Int) : Int :=
  if a = 0 then b else a

/-- A grouped loyalty program: scalar fields seeded from the first row
seen for its `program_id`, plus the accumulated member id set. -/
structure LoyGroup where
  program_id : Int
  program_name : JSVal
  program_type : String
  total_price : Rat
  after_discount : Rat
  discount : Rat
  min_qty : Int
  buy_quantity : Int
  free_quantity : Int
  reward_quantity : Int
  discount_percent : Rat
  rule_id : Int
  rule_active : JSVal
  active : JSVal
  product_ids : List Int
deriving DecidableEq

/-- The scalar seed taken from the first row sighted for a group
(`groups.set(programId, {...})` with an empty member set). -/
def seedGroup (row : LoyRow) : LoyGroup :=
  { program_id := row.program_id
    program_name := row.name
    program_type := sOr row.promotion_type (sOr row.type "promotion")
    total_price := rOr row.loyalty_program_total_price row.total_price
    after_discount := rOr row.loyalty_program_after_discount row.after_discount
    discount := rOr row.loyalty_program_discount row.discount_amount
    min_qty := iOr (iOr row.loyalty_program_minimum_qty (iOr row.min_quantity row.buy_quantity)) 1
    buy_quantity := iOr row.buy_quantity 1
    free_quantity := iOr row.free_quantity 1
    reward_quantity := iOr (iOr row.reward_quantity row.free_quantity) 1
    discount_percent := row.discount_percent
    rule_id := row.rule_id
    rule_active := row.rule_active
    active := row.active
    product_ids := [] }

/-- The member ids one row feeds to `Set.add`, in source order: every
truthy `eligible_products` entry id, then `main_product.id` when the
eligible list is empty. -/
def contrib (row : LoyRow) : List Int :=
  (row.eligible_products.filterMap (fun o =>
      match o with
      | some e => if e.id ≠ 0 then some e.id else none
      | none => none))
    ++ (if row.eligible_products = [] then
        match row.main_product with
        | some m => if m.id ≠ 0 then [m.id] else []
        | none => []
      else [])

/-- JS `Set.prototype.add`: keep insertion order, ignore duplicates. -/
def setAdd (l : List Int) (x : Int) : List Int :=
  if x ∈ l then l else l ++ [x]

/-- Add all of one row's member ids to a group's id set. -/
def addMembers (s : List Int) (row : LoyRow) : List Int :=
  (contrib row).foldl setAdd s

/-- The in-place update `groupByProgram` performs on the entry of an
already-sighted program id: add the row's member ids to its set. -/
def rowUpd (row : LoyRow) (kv : Int × LoyGroup) : Int × LoyGroup :=
  if kv.1 = row.program_id then
    (kv.1, { kv.2 with product_ids := addMembers kv.2.product_ids row })
  else kv

/-- One iteration of the `groupByProgram` loop: skip rows with a falsy
program id, seed on first sighting, accumulate member ids on every
sighting. -/
def addRow (m : List (Int × LoyGroup)) (row : LoyRow) : List (Int × LoyGroup) :=
  if row.program_id = 0 then m
  else if (m.find? (fun kv => kv.1 = row.program_id)).isSome then
    m.map (rowUpd row)
  else
    m ++ [(row.program_id, { seedGroup row with product_ids := addMembers [] row })]

/-- `LoyaltySyncService.groupByProgram` as an insertion-ordered program map. -/
def groupByProgram (rows : List LoyRow) : List (Int × LoyGroup) :=
  rows.foldl addRow []

/-- Per-pass loyalty sync counters. -/
structure LoyStats where
  created : Nat
  updated : Nat
  skipped : Nat
  unchanged : Nat
  filtered : Nat
  errors : Nat
deriving DecidableEq

def zeroLoyStats : LoyStats := ⟨0, 0, 0, 0, 0, 0⟩

/-- The allow-list of `filterProgramTypes`. -/
def allowedTypes : List String := ["promotion", "buy_x_get_y", "buyxgety"]

def allowedType (g : LoyGroup) : Bool :=
  allowedTypes.contains (jsToLowerCase g.program_type)

/-- `LoyaltySyncService.filterProgramTypes`: keep allow-listed groups,
count every dropped group under `filtered`. -/
def filterProgramTypes (gs : List (Int × LoyGroup)) (st : LoyStats) :
    List (Int × LoyGroup) × LoyStats :=
  gs.foldl
    (fun acc kv =>
      if allowedType kv.2 then (acc.1 ++ [kv], acc.2)
      else (acc.1, { acc.2 with filtered := acc.2.filtered + 1 }))
    ([], st)

/-- JS `Math.round` (half away from zero is JS-specific: it rounds half
toward positive infinity). -/
def jsRound (q : Rat) : Int :=
  (rAdd q (mkRat 1 2)).floor

/-- The transformed loyalty program record, also the shape of a persisted
`loyalty_programs` mirror row for the compared fields (the stored
`start_date` / `end_date` bookkeeping carries no compared data and is
omitted). -/
structure LoyRec where
  name : JSVal
  type : JSVal
  trigger_product_ids : JSVal
  reward_product_ids : JSVal
  min_quantity : JSVal
  max_quantity : JSVal
  reward_quantity : JSVal
  discount_percent : JSVal
  discount_amount : JSVal
  after_discount : JSVal
  total_price : JSVal
  active : JSVal
  odoo_program_id : JSVal
  odoo_rule_id : JSVal
deriving DecidableEq

/-- `LoyaltySyncService.transformGroupedProgram`. -/
def transformGroupedProgram (g : LoyGroup) : LoyRec :=
  let productIds := canonicalJoin g.product_ids
  let fullPrice := rMul g.total_price ((g.min_qty : Int) : Rat)
  let discountPercent : Rat :=
    if 0 < fullPrice then Rat.divInt (jsRound (rMul (rDiv g.discount fullPrice) 10000)) 100
    else 0
  let pt := jsToLowerCase g.program_type
  { name := jsOr g.program_name (.str "Unknown Program")
    type := .num (if pt = "buy_x_get_y" ∨ pt = "buyxgety" then 1 else 0)
    trigger_product_ids := .str productIds
    reward_product_ids := .str productIds
    min_quantity := .num ((iOr g.min_qty (iOr g.buy_quantity 1) : Int) : Rat)
    max_quantity := .num 1
    reward_quantity := .num ((iOr g.reward_quantity (iOr g.free_quantity 1) : Int) : Rat)
    discount_percent := .num (rOr discountPercent (rOr g.discount_percent 0))
    discount_amount := .num (Rat.divInt (jsRound (rMul g.discount 100)) 100)
    after_discount := .num (Rat.divInt (jsRound (rMul g.after_discount 100)) 100)
    total_price := .num (Rat.divInt (jsRound (rMul g.total_price 100)) 100)
    active := .bool
      (if g.active ≠ .undefined then g.active = .bool true ∨ g.active = .str "True"
       else g.rule_active = .str "True" ∨ g.rule_active = .bool true)
    odoo_program_id := if g.program_id = 0 then .null else .num (g.program_id : Rat)
    odoo_rule_id := if g.rule_id = 0 then .null else .num (g.rule_id : Rat) }

/-- Normalization classes of the loyalty comparison table. -/
inductive LNorm where
  | raw
  | act
  | ids
  | int
  | numb
deriving DecidableEq

/-- Apply a loyalty normalization class as the loyalty `hasChanges` does:
both `int` and `numb` use default `null` here. -/
def applyLNorm : LNorm → JSVal → JSVal
  | .raw, v => v
  | .act, v => .num (normalizeActive v)
  | .ids, v => .str (normalizeProductIds v)
  | .int, v =>
      match jsParseInt v with
      | some n => .num (n : Rat)
      | none => .null
  | .numb, v =>
      match jsParseFloat v with
      | some q => .num q
      | none => .null

/-- One entry of the loyalty field-comparison table. -/
structure LField where
  proj : LoyRec → JSVal
  norm : LNorm

/-- The `fieldsToCompare` table of the loyalty `hasChanges`
(remote and local field names coincide for every entry). -/
def loyFields : List LField :=
  [ ⟨LoyRec.name, .raw⟩
  , ⟨LoyRec.type, .int⟩
  , ⟨LoyRec.trigger_product_ids, .ids⟩
  , ⟨LoyRec.reward_product_ids, .ids⟩
  , ⟨LoyRec.min_quantity, .int⟩
  , ⟨LoyRec.max_quantity, .int⟩
  , ⟨LoyRec.reward_quantity, .int⟩
  , ⟨LoyRec.discount_percent, .numb⟩
  , ⟨LoyRec.discount_amount, .numb⟩
  , ⟨LoyRec.after_discount, .numb⟩
  , ⟨LoyRec.total_price, .numb⟩
  , ⟨LoyRec.active, .act⟩
  , ⟨LoyRec.odoo_rule_id, .int⟩ ]

/-- Whether one loyalty table entry reports a mismatch. -/
def lfieldMismatch (o l : LoyRec) (f : LField) : Bool :=
  nullWash (applyLNorm f.norm (f.proj o)) ≠ nullWash (applyLNorm f.norm (f.proj l))

/-- `LoyaltySyncService.hasChanges`. -/
def loyHasChanges (o l : LoyRec) : Bool :=
  loyFields.any (lfieldMismatch o l)

/-- The row written by `createLoyaltyProgram` for a transformed program
(`||` defaults applied column by column; `active` stored as the
`!== false` bit). -/
def createdLoyRow (p : LoyRec) : LoyRec :=
  { name := p.name
    type := jsOr p.type (.num 0)
    trigger_product_ids := jsOr p.trigger_product_ids .null
    reward_product_ids := jsOr p.reward_product_ids .null
    min_quantity := jsOr p.min_quantity (.num 1)
    max_quantity := jsOr p.max_quantity (.num 1)
    reward_quantity := jsOr p.reward_quantity (.num 1)
    discount_percent := jsOr p.discount_percent (.num 0)
    discount_amount := jsOr p.discount_amount .null
    after_discount := jsOr p.after_discount .null
    total_price := jsOr p.total_price .null
    active := .num (if p.active = .bool false then 0 else 1)
    odoo_program_id := jsOr p.odoo_program_id .null
    odoo_rule_id := jsOr p.odoo_rule_id .null }

/-- The loyalty mirror snapshot keyed by `odoo_program_id`. -/
abbrev LoyMirror := List (JSVal × LoyRec)

def lookupLoy (m : LoyMirror) (k : JSVal) : Option LoyRec :=
  match m.find? (fun kv => kv.1 = k) with
  | some kv => some kv.2
  | none => none

/-- Mirror + stats state threaded through one loyalty pass. -/
structure LState where
  mirror : LoyMirror
  stats : LoyStats
deriving DecidableEq

/-- The body of the `syncAllLoyaltyPrograms` loop for one transformed
program: skip on falsy `odoo_program_id`, otherwise create / update /
leave unchanged by the change detector's verdict.  Updates overwrite
every compared column with the transformed values. -/
def loyStep (st : LState) (p : LoyRec) : LState :=
  if ¬ p.odoo_program_id.truthy then
    { st with stats := { st.stats with skipped := st.stats.skipped + 1 } }
  else
    match lookupLoy st.mirror p.odoo_program_id with
    | some row =>
        if loyHasChanges p row then
          { mirror := st.mirror.map (fun kv =>
              if kv.1 = p.odoo_program_id then (kv.1, createdLoyRow p) else kv)
            stats := { st.stats with updated := st.stats.updated + 1 } }
        else
          { st with stats := { st.stats with unchanged := st.stats.unchanged + 1 } }
    | none =>
        { mirror := st.mirror ++ [(p.odoo_program_id, createdLoyRow p)]
          stats := { st.stats with created := st.stats.created + 1 } }

/-- One full `syncAllLoyaltyPrograms` pass over the raw remote rows:
group, type-filter (counting `filtered`), then reconcile each kept group
against the mirror snapshot. -/
def syncAllLoyaltyPrograms (rows : List LoyRow) (m : LoyMirror) : LState :=
  let groups := groupByProgram rows
  let fl := filterProgramTypes groups zeroLoyStats
  (fl.1.map (fun kv => transformGroupedProgram kv.2)).foldl loyStep ⟨m, fl.2⟩

end LoyaltySync

namespace OdooClient

/-- A JS error as raised by the HTTP layer or the token extraction:
an HTTP response error with its status, a request that got no response,
or the `'No token in response'` error. -/
inductive JsErr where
  | http (status : Nat)
  | network
  | noToken
deriving DecidableEq

/-- An error in the spec's `AuthError` class: an authorization failure
(HTTP 401) or a credential response without a token field. -/
def isAuthError : JsErr → Bool
  | .http s => s = 401
  | .network => false
  | .noToken => true

/-- The scripted outcome of one call to the credential endpoint:
a response carrying an optional token field, or a thrown error. -/
inductive AuthOutcome where
  | resp (tok : Option String)
  | err (e : JsErr)
deriving DecidableEq

/-- The scripted outcome of one attempt of the main request. -/
inductive ReqOutcome where
  | ok (data : String)
  | err (e : JsErr)
deriving DecidableEq

/-- `getAuthToken`: store whatever the response's token field holds (or
`undefined`), then fail hard when it is falsy.  Returns the call result
and the cached-credential state it leaves behind. -/
def getAuthToken (o : AuthOutcome) (tok : Option String) :
    Except JsErr String × Option String :=
  match o with
  | .resp t =>
      match t with
      | some s => if s = "" then (.error .noToken, some s) else (.ok s, some s)
      | none => (.error .noToken, none)
  | .err e => (.error e, tok)

deriving instance DecidableEq for Except

/-- Result of one `odooRequest` invocation: the surfaced result, the final
cached-credential state, the number of attempts of the main request, and
the number of credential-endpoint calls. -/
structure ReqTrace where
  result : Except JsErr String
  token : Option String
  nReq : Nat
  nAuth : Nat
deriving DecidableEq

/-- The 401-retry tail of `odooRequest`'s catch block: invalidate the
cached credential, re-acquire once, then re-issue the request once; any
failure inside the catch block propagates uncaught. -/
def retryTail (a : AuthOutcome) (r : ReqOutcome) (nReq nAuth : Nat) : ReqTrace :=
  match getAuthToken a none with
  | (.error e2, tok2) => ⟨.error e2, tok2, nReq, nAuth + 1⟩
  | (.ok _, tok2) =>
      match r with
      | .ok d => ⟨.ok d, tok2, nReq + 1, nAuth + 1⟩
      | .err e3 => ⟨.error e3, tok2, nReq + 1, nAuth + 1⟩

/-- `odooRequest` with scripted outcomes: `a1`, `a2` are the outcomes of
the first and second credential call this invocation would make, `r1`,
`r2` those of the first and second attempt of the main request, `tok` the
cached credential.  The source makes at most two request attempts and two
credential calls per invocation; the straight-line catch logic below is
its exact unrolling. -/
def odooRequest (a1 a2 : AuthOutcome) (r1 r2 : ReqOutcome) (tok : Option String) :
    ReqTrace :=
  match tok with
  | none =>
      match getAuthToken a1 none with
      | (.error e, tok1) =>
          if e = .http 401 then retryTail a2 r1 0 1
          else ⟨.error e, tok1, 0, 1⟩
      | (.ok _, tok1) =>
          match r1 with
          | .ok d => ⟨.ok d, tok1, 1, 1⟩
          | .err e =>
              if e = .http 401 then retryTail a2 r2 1 1
              else ⟨.error e, tok1, 1, 1⟩
  | some t =>
      match r1 with
      | .ok d => ⟨.ok d, some t, 1, 0⟩
      | .err e =>
          if e = .http 401 then retryTail a1 r2 1 0
          else ⟨.error e, some t, 1, 0⟩

end OdooClient

namespace Orchestrator

/-- The object each sub-sync (`syncAllProducts` / `syncAllLoyaltyPrograms`)
resolves with: it always carries a `success` flag, plus its stats payload
(abstracted to an opaque tag here). -/
structure SubResult where
  success : Bool
  payload : String
deriving DecidableEq

/-- The outcome of awaiting one sub-sync: a resolved result or a thrown
error. -/
inductive Outcome where
  | ok (r : SubResult)
  | threw (msg : String)
deriving DecidableEq

/-- The environment of one pass: what the two awaited sub-syncs do. -/
structure Env where
  products : Outcome
  loyalty : Outcome
deriving DecidableEq

/-- The results object built by a completed pass. -/
structure SyncResultRec where
  products : SubResult
  loyalty : SubResult
  success : Bool
deriving DecidableEq

/-- The orchestrator's mutable fields touched by `runFullSync`. -/
structure OrchState where
  isRunning : Bool
  lastSyncResult : Option SyncResultRec
deriving DecidableEq

/-- What `runFullSync` returns to its caller: the busy rejection object,
the completed results object, or the catch-block error object. -/
inductive RunRet where
  | busy (error : String)
  | completed (r : SyncResultRec)
  | failed (msg : String)
deriving DecidableEq

/-- The `success` flag of the returned object. -/
def retSuccess : RunRet → Bool
  | .busy _ => false
  | .completed r => r.success
  | .failed _ => false

/-- `SyncOrchestrator.runFullSync`: reject immediately while a pass is
running; otherwise run products then loyalty, set the overall `success`
flag from the product result (`results.success = results.products?.success`),
store the results object, and always clear `isRunning` in the `finally`
block.  A thrown sub-sync is caught and returned as an error object
without updating `lastSyncResult`. -/
def runFullSync (st : OrchState) (env : Env) : RunRet × OrchState :=
  if st.isRunning then
    (.busy "Sync already in progress", st)
  else
    match env.products with
    | .threw m => (.failed m, ⟨false, st.lastSyncResult⟩)
    | .ok pr =>
        match env.loyalty with
        | .threw m => (.failed m, ⟨false, st.lastSyncResult⟩)
        | .ok lr =>
            let res : SyncResultRec := ⟨pr, lr, pr.success⟩
            (.completed res, ⟨false, some res⟩)

end Orchestrator

section OrchestratorClaims

open Orchestrator

/-- C2: while a pass is running (`isRunning = true`), `runFullSync` returns
immediately the `success: false` / "already in progress" object and changes
no orchestrator state (so the in-flight pass's eventual stored result is
unaffected); and any pass started from the idle state ends with
`isRunning = false` again, whether the sub-syncs succeed or throw. -/
theorem runFullSync_single_flight (st : OrchState) (env : Env) :
    (st.isRunning = true →
      runFullSync st env = (RunRet.busy "Sync already in progress", st) ∧
      retSuccess (runFullSync st env).1 = false) ∧
    (st.isRunning = false → (runFullSync st env).2.isRunning = false) := by
  constructor
  · intro h
    simp [runFullSync, h, retSuccess]
  · intro h
    cases hp : env.products with
    | threw m => simp [runFullSync, h, hp]
    | ok pr =>
      cases hl : env.loyalty with
      | threw m => simp [runFullSync, h, hp, hl]
      | ok lr => simp [runFullSync, h, hp, hl]

/-- Witness for C2 at concrete states: a running state rejects the trigger
unchanged, and an idle state ends idle. -/
theorem runFullSync_single_flight_witness :
    (runFullSync ⟨true, none⟩ ⟨.ok ⟨true, "p"⟩, .ok ⟨true, "l"⟩⟩ =
        (RunRet.busy "Sync already in progress", ⟨true, none⟩) ∧
      retSuccess (runFullSync ⟨true, none⟩ ⟨.ok ⟨true, "p"⟩, .ok ⟨true, "l"⟩⟩).1 = false) ∧
    (runFullSync ⟨false, none⟩ ⟨.ok ⟨true, "p"⟩, .ok ⟨true, "l"⟩⟩).2.isRunning = false :=
  ⟨(runFullSync_single_flight ⟨true, none⟩ ⟨.ok ⟨true, "p"⟩, .ok ⟨true, "l"⟩⟩).1 rfl,
   (runFullSync_single_flight ⟨false, none⟩ ⟨.ok ⟨true, "p"⟩, .ok ⟨true, "l"⟩⟩).2 rfl⟩

/-- C4 counterexample: with the product sub-sync succeeding and the loyalty
sub-sync reporting failure, `runFullSync` returns `success = true`
(`results.success = results.products?.success` ignores the loyalty
result), contradicting the claim that success is false whenever any
sub-reconciliation reports failure. -/
theorem runFullSync_ignores_loyalty_failure :
    retSuccess (runFullSync ⟨false, none⟩ ⟨.ok ⟨true, "p"⟩, .ok ⟨false, "l"⟩⟩).1 = true ∧
    (SubResult.mk false "l").success = false := by
  constructor
  · rfl
  · rfl

/-- C4 amended: `runFullSync` always returns a result object to its caller
(the model is a total function: every thrown sub-sync is caught), and the
returned `success` flag is false when either sub-sync throws, and otherwise
equals the product sub-sync's own success flag — the loyalty sub-result's
`success` does not influence it. -/
theorem runFullSync_success_flag (st : OrchState) (env : Env)
    (h : st.isRunning = false) :
    retSuccess (runFullSync st env).1 =
      (match env.products, env.loyalty with
       | .ok pr, .ok _ => pr.success
       | _, _ => false) := by
  cases hp : env.products with
  | threw m => simp [runFullSync, h, hp, retSuccess]
  | ok pr =>
    cases hl : env.loyalty with
    | threw m => simp [runFullSync, h, hp, hl, retSuccess]
    | ok lr => simp [runFullSync, h, hp, hl, retSuccess]

/-- Witness for the amended C4 at a concrete idle state and environment. -/
theorem runFullSync_success_flag_witness :
    retSuccess (runFullSync ⟨false, none⟩ ⟨.ok ⟨false, "p"⟩, .ok ⟨true, "l"⟩⟩).1 = false :=
  runFullSync_success_flag ⟨false, none⟩ ⟨.ok ⟨false, "p"⟩, .ok ⟨true, "l"⟩⟩ rfl

end OrchestratorClaims

section ClientClaims

open OdooClient

/-- C5: with a cached credential, a first attempt failing with HTTP 401
triggers exactly one re-acquisition and exactly one retry whose result is
returned on success; two consecutive 401s surface an authorization error
with no third attempt; a non-401 failure is surfaced without any retry or
re-acquisition; a credential response without a token field is a hard
`AuthError`-class failure; and no invocation ever makes a third request
attempt or a third credential call. -/
theorem odooRequest_retry_once (t t2 dat : String) (a2 : AuthOutcome)
    (r2 : ReqOutcome) (e : JsErr) (ht2 : t2 ≠ "") (he : e ≠ .http 401) :
    odooRequest (.resp (some t2)) a2 (.err (.http 401)) (.ok dat) (some t) =
      ⟨.ok dat, some t2, 2, 1⟩ ∧
    (odooRequest (.resp (some t2)) a2 (.err (.http 401)) (.err (.http 401)) (some t) =
        ⟨.error (.http 401), some t2, 2, 1⟩ ∧
      isAuthError (.http 401) = true) ∧
    odooRequest (.resp (some t2)) a2 (.err e) r2 (some t) =
      ⟨.error e, some t, 1, 0⟩ ∧
    (odooRequest (.resp none) a2 (.ok dat) r2 none =
        ⟨.error .noToken, none, 0, 1⟩ ∧
      isAuthError .noToken = true) ∧
    (∀ a1 b2 s1 s2 tok, (odooRequest a1 b2 s1 s2 tok).nReq ≤ 2 ∧
      (odooRequest a1 b2 s1 s2 tok).nAuth ≤ 2) := by
  refine ⟨?_, ⟨?_, rfl⟩, ?_, ⟨?_, rfl⟩, ?_⟩
  · simp [odooRequest, retryTail, getAuthToken, ht2]
  · simp [odooRequest, retryTail, getAuthToken, ht2]
  · simp [odooRequest, he]
  · simp [odooRequest, getAuthToken]
  · intro a1 b2 s1 s2 tok
    have hrt : ∀ (a : AuthOutcome) (r : ReqOutcome) (n m : Nat),
        (retryTail a r n m).nReq ≤ n + 1 ∧ (retryTail a r n m).nAuth = m + 1 := by
      intro a r n m
      cases a with
      | resp tk =>
        cases tk with
        | some s =>
          by_cases hs : s = "" <;> cases r <;> simp [retryTail, getAuthToken, hs]
        | none => simp [retryTail, getAuthToken]
      | err e2 => simp [retryTail, getAuthToken]
    cases tok with
    | some t0 =>
      cases s1 with
      | ok d => simp [odooRequest]
      | err e2 =>
        by_cases he2 : e2 = JsErr.http 401
        · have h2 := hrt a1 s2 1 0
          simp [odooRequest, he2]
          omega
        · simp [odooRequest, he2]
    | none =>
      cases a1 with
      | err e2 =>
        by_cases he2 : e2 = JsErr.http 401
        · have h2 := hrt b2 s1 0 1
          simp [odooRequest, getAuthToken, he2]
          omega
        · simp [odooRequest, getAuthToken, he2]
      | resp tk =>
        cases tk with
        | none => simp [odooRequest, getAuthToken]
        | some s =>
          by_cases hs : s = ""
          · simp [odooRequest, getAuthToken, hs]
          · cases s1 with
            | ok d => simp [odooRequest, getAuthToken, hs]
            | err e2 =>
              by_cases he2 : e2 = JsErr.http 401
              · have h2 := hrt b2 s2 1 1
                simp [odooRequest, getAuthToken, hs, he2]
                omega
              · simp [odooRequest, getAuthToken, hs, he2]

/-- Witness for C5 at concrete tokens, data and error values. -/
theorem odooRequest_retry_once_witness :
    odooRequest (.resp (some "t2")) (.resp none) (.err (.http 401)) (.ok "d") (some "t1") =
      ⟨.ok "d", some "t2", 2, 1⟩ ∧
    odooRequest (.resp (some "t2")) (.resp none) (.err .network) (.ok "d") (some "t1") =
      ⟨.error .network, some "t1", 1, 0⟩ :=
  ⟨(odooRequest_retry_once "t1" "t2" "d" (.resp none) (.ok "d") .network
      (by decide) (by decide)).1,
   (odooRequest_retry_once "t1" "t2" "d" (.resp none) (.ok "d") .network
      (by decide) (by decide)).2.2.1⟩

end ClientClaims

section ActiveClaims

/-- C7: the detectors' `normalizeActive` maps `true`, `1`, `"1"`, `"true"`
to active (1) and `false`, `0`, `"0"`, `"false"` to inactive (0), and an
absent (`undefined`) value defaults to active; and the product transformer
combines two present boolean `template_active` / `product_active` flags
with AND and defaults a fully absent active status to active. -/
theorem normalizeActive_spec :
    (normalizeActive (.bool true) = 1 ∧ normalizeActive (.num 1) = 1 ∧
      normalizeActive (.str "1") = 1 ∧ normalizeActive (.str "true") = 1) ∧
    (normalizeActive (.bool false) = 0 ∧ normalizeActive (.num 0) = 0 ∧
      normalizeActive (.str "0") = 0 ∧ normalizeActive (.str "false") = 0) ∧
    normalizeActive .undefined = 1 ∧
    (∀ (d : ProductSync.RawProduct) (t p : Bool),
      d.template_active = .bool t → d.product_active = .bool p →
      (ProductSync.transformOdooProduct d).active = .bool (t && p)) ∧
    (∀ d : ProductSync.RawProduct,
      d.template_active = .undefined → d.product_active = .undefined → d.active = .undefined →
      (ProductSync.transformOdooProduct d).active = .bool true) := by
  refine ⟨by decide, by decide, by decide, ?_, ?_⟩
  · intro d t p ht hp
    cases t <;> cases p <;>
      simp [ProductSync.transformOdooProduct, ht, hp, jsAnd, JSVal.truthy]
  · intro d ht hp ha
    simp [ProductSync.transformOdooProduct, ht, hp, ha]

/-- Witness for C7 at a concrete raw product with boolean flags and one
with every active field absent. -/
theorem normalizeActive_spec_witness :
    (ProductSync.transformOdooProduct
        ⟨.undefined, .num 1, .num 2, .undefined, .v .undefined, .v .undefined, .undefined, .undefined, .undefined,
          .v .undefined, .undefined, .undefined, .bool true, .bool false⟩).active = .bool false ∧
    (ProductSync.transformOdooProduct
        ⟨.undefined, .num 1, .num 2, .undefined, .v .undefined, .v .undefined, .undefined, .undefined, .undefined,
          .v .undefined, .undefined, .undefined, .undefined, .undefined⟩).active = .bool true :=
  ⟨normalizeActive_spec.2.2.2.1
      ⟨.undefined, .num 1, .num 2, .undefined, .v .undefined, .v .undefined, .undefined, .undefined, .undefined,
        .v .undefined, .undefined, .undefined, .bool true, .bool false⟩ true false rfl rfl,
   normalizeActive_spec.2.2.2.2
      ⟨.undefined, .num 1, .num 2, .undefined, .v .undefined, .v .undefined, .undefined, .undefined, .undefined,
        .v .undefined, .undefined, .undefined, .undefined, .undefined⟩ rfl rfl rfl⟩

end ActiveClaims

section SkipClaims

/-- C8: an entity whose transformed form lacks a usable (truthy) stable id
is counted under `skipped` and causes no mirror write, and the loop simply
continues with the remaining entities — in the product reconciler (falsy
`id`) and in the loyalty reconciler (falsy `odoo_program_id`) alike.  The
step functions are total, so no exception propagates, and the mirror is
untouched, so no id is guessed or synthesized. -/
theorem missing_id_skipped (st : ProductSync.PState) (raw : ProductSync.RawProduct)
    (lst : LoyaltySync.LState) (p : LoyaltySync.LoyRec)
    (hp : (ProductSync.transformOdooProduct raw).id.truthy = false)
    (hl : p.odoo_program_id.truthy = false) :
    ProductSync.syncStep st raw =
      { st with stats := { st.stats with skipped := st.stats.skipped + 1 } } ∧
    (ProductSync.syncStep st raw).mirror = st.mirror ∧
    (∀ rest : List ProductSync.RawProduct,
      (raw :: rest).foldl ProductSync.syncStep st =
        rest.foldl ProductSync.syncStep
          { st with stats := { st.stats with skipped := st.stats.skipped + 1 } }) ∧
    LoyaltySync.loyStep lst p =
      { lst with stats := { lst.stats with skipped := lst.stats.skipped + 1 } } ∧
    (LoyaltySync.loyStep lst p).mirror = lst.mirror := by
  have h1 : ProductSync.syncStep st raw =
      { st with stats := { st.stats with skipped := st.stats.skipped + 1 } } := by
    simp [ProductSync.syncStep, hp]
  have h2 : LoyaltySync.loyStep lst p =
      { lst with stats := { lst.stats with skipped := lst.stats.skipped + 1 } } := by
    simp [LoyaltySync.loyStep, hl]
  refine ⟨h1, by rw [h1], ?_, h2, by rw [h2]⟩
  intro rest
  rw [List.foldl_cons, h1]

/-- Witness for C8: a remote product with no id field at all and a
transformed loyalty program whose `odoo_program_id` is null are both
skipped against an empty mirror. -/
theorem missing_id_skipped_witness :
    ProductSync.syncStep ⟨[], ProductSync.zeroStats⟩
        ⟨.undefined, .undefined, .num 2, .undefined, .v (.str "noid"), .v .undefined, .undefined, .undefined,
          .undefined, .v .undefined, .undefined, .undefined, .undefined, .undefined⟩ =
      ⟨[], 0, 0, 1, 0, 0⟩ ∧
    LoyaltySync.loyStep ⟨[], LoyaltySync.zeroLoyStats⟩
        ⟨.str "x", .num 0, .str "", .str "", .num 1, .num 1, .num 1, .num 0, .null,
          .null, .null, .bool true, .null, .null⟩ =
      ⟨[], 0, 0, 1, 0, 0, 0⟩ :=
  ⟨(missing_id_skipped ⟨[], ProductSync.zeroStats⟩
      ⟨.undefined, .undefined, .num 2, .undefined, .v (.str "noid"), .v .undefined, .undefined, .undefined,
        .undefined, .v .undefined, .undefined, .undefined, .undefined, .undefined⟩
      ⟨[], LoyaltySync.zeroLoyStats⟩
      ⟨.str "x", .num 0, .str "", .str "", .num 1, .num 1, .num 1, .num 0, .null,
        .null, .null, .bool true, .null, .null⟩
      (by decide) (by decide)).1,
   (missing_id_skipped ⟨[], ProductSync.zeroStats⟩
      ⟨.undefined, .undefined, .num 2, .undefined, .v (.str "noid"), .v .undefined, .undefined, .undefined,
        .undefined, .v .undefined, .undefined, .undefined, .undefined, .undefined⟩
      ⟨[], LoyaltySync.zeroLoyStats⟩
      ⟨.str "x", .num 0, .str "", .str "", .num 1, .num 1, .num 1, .num 0, .null,
        .null, .null, .bool true, .null, .null⟩
      (by decide) (by decide)).2.2.2.1⟩

/-- C10: a remote product whose transformed form has a usable id but a
falsy `template_id` is also skipped by the product reconciler: `skipped`
is incremented, no mirror row is created or updated, and the loop
continues with the remaining products. -/
theorem missing_template_id_skipped (st : ProductSync.PState)
    (raw : ProductSync.RawProduct)
    (hid : (ProductSync.transformOdooProduct raw).id.truthy = true)
    (htid : (ProductSync.transformOdooProduct raw).template_id.truthy = false) :
    ProductSync.syncStep st raw =
      { st with stats := { st.stats with skipped := st.stats.skipped + 1 } } ∧
    (ProductSync.syncStep st raw).mirror = st.mirror ∧
    (∀ rest : List ProductSync.RawProduct,
      (raw :: rest).foldl ProductSync.syncStep st =
        rest.foldl ProductSync.syncStep
          { st with stats := { st.stats with skipped := st.stats.skipped + 1 } }) := by
  have h1 : ProductSync.syncStep st raw =
      { st with stats := { st.stats with skipped := st.stats.skipped + 1 } } := by
    simp [ProductSync.syncStep, hid, htid]
  refine ⟨h1, by rw [h1], ?_⟩
  intro rest
  rw [List.foldl_cons, h1]

/-- Witness for C10: a product with id 7 but no template id is skipped
against an empty mirror. -/
theorem missing_template_id_skipped_witness :
    ProductSync.syncStep ⟨[], ProductSync.zeroStats⟩
        ⟨.undefined, .num 7, .undefined, .undefined, .v (.str "notmpl"), .v .undefined, .undefined, .undefined,
          .undefined, .v .undefined, .undefined, .undefined, .undefined, .undefined⟩ =
      ⟨[], 0, 0, 1, 0, 0⟩ :=
  (missing_template_id_skipped ⟨[], ProductSync.zeroStats⟩
      ⟨.undefined, .num 7, .undefined, .undefined, .v (.str "notmpl"), .v .undefined, .undefined, .undefined,
        .undefined, .v .undefined, .undefined, .undefined, .undefined, .undefined⟩
      (by decide) (by decide)).1

end SkipClaims



/-- Two entries of an association list with distinct keys and the same key
hold the same value. -/
lemma keys_nodup_unique {α β : Type} {m : List (α × β)}
    (hnd : (m.map Prod.fst).Nodup) {k : α} {b b2 : β}
    (h1 : (k, b) ∈ m) (h2 : (k, b2) ∈ m) : b = b2 := by
  induction m with
  | nil => cases h1
  | cons kv rest ih =>
    rw [List.map_cons, List.nodup_cons] at hnd
    rcases List.mem_cons.1 h1 with e1 | m1 <;> rcases List.mem_cons.1 h2 with e2 | m2
    · exact congrArg Prod.snd (e1.trans e2.symm)
    · exfalso
      have hk : kv.1 = k := by rw [← e1]
      exact hnd.1 (by rw [hk]; exact List.mem_map.2 ⟨(k, b2), m2, rfl⟩)
    · exfalso
      have hk : kv.1 = k := by rw [← e2]
      exact hnd.1 (by rw [hk]; exact List.mem_map.2 ⟨(k, b), m1, rfl⟩)
    · exact ih hnd.2 m1 m2

namespace LoyaltySync

lemma filterProgramTypes_go (gs acc : List (Int × LoyGroup)) (st : LoyStats) :
    gs.foldl
        (fun a kv =>
          if allowedType kv.2 then (a.1 ++ [kv], a.2)
          else (a.1, { a.2 with filtered := a.2.filtered + 1 }))
        (acc, st) =
      (acc ++ gs.filter (fun kv => allowedType kv.2),
       { st with filtered := st.filtered + gs.countP (fun kv => !allowedType kv.2) }) := by
  induction gs generalizing acc st with
  | nil => simp
  | cons kv rest ih =>
    rw [List.foldl_cons]
    by_cases h : allowedType kv.2
    · have hstep :
          (if allowedType kv.2 then (acc ++ [kv], st)
           else (acc, { st with filtered := st.filtered + 1 })) = (acc ++ [kv], st) := by
        simp [h]
      rw [hstep, ih]
      simp [List.filter_cons, List.countP_cons, h, List.append_assoc]
    · have hstep :
          (if allowedType kv.2 then (acc ++ [kv], st)
           else (acc, { st with filtered := st.filtered + 1 })) =
            (acc, { st with filtered := st.filtered + 1 }) := by
        simp [h]
      rw [hstep, ih]
      have hcount : List.countP (fun kv => !allowedType kv.2) (kv :: rest) =
          List.countP (fun kv => !allowedType kv.2) rest + 1 := by
        rw [List.countP_cons]
        simp [h]
      have hfilter : List.filter (fun kv => allowedType kv.2) (kv :: rest) =
          List.filter (fun kv => allowedType kv.2) rest := by
        rw [List.filter_cons]
        simp [h]
      rw [hcount, hfilter]
      have harith : st.filtered + 1 + List.countP (fun kv => !allowedType kv.2) rest =
          st.filtered + (List.countP (fun kv => !allowedType kv.2) rest + 1) := by
        omega
      rw [harith]

lemma lookupLoy_eq_none_iff (m : LoyMirror) (k : JSVal) :
    lookupLoy m k = none ↔ k ∉ m.map Prod.fst := by
  unfold lookupLoy
  cases h : m.find? (fun kv => kv.1 = k) with
  | some kv =>
    simp only [Option.some.injEq, reduceCtorEq, false_iff, not_not]
    have hpred := List.find?_some h
    have hmem := List.mem_of_find?_eq_some h
    simp only [decide_eq_true_eq] at hpred
    exact hpred ▸ List.mem_map.2 ⟨kv, hmem, rfl⟩
  | none =>
    simp only [true_iff]
    rw [List.find?_eq_none] at h
    intro hk
    rcases List.mem_map.1 hk with ⟨kv, hkv, hfst⟩
    have h2 := h kv hkv
    simp only [decide_eq_true_eq] at h2
    exact h2 hfst

lemma loyStep_keys (st : LState) (p : LoyRec) :
    (loyStep st p).mirror.map Prod.fst = st.mirror.map Prod.fst ∨
    (loyStep st p).mirror.map Prod.fst =
      st.mirror.map Prod.fst ++ [p.odoo_program_id] := by
  by_cases ht : p.odoo_program_id.truthy
  · cases hl : lookupLoy st.mirror p.odoo_program_id with
    | some row =>
      by_cases hc : loyHasChanges p row
      · left
        have hm : (loyStep st p).mirror =
            st.mirror.map (fun kv =>
              if kv.1 = p.odoo_program_id then (kv.1, createdLoyRow p) else kv) := by
          simp [loyStep, ht, hl, hc]
        rw [hm, List.map_map]
        apply List.map_congr_left
        intro kv _
        by_cases hk : kv.1 = p.odoo_program_id <;> simp [hk]
      · left
        have hm : (loyStep st p).mirror = st.mirror := by
          simp [loyStep, ht, hl, hc]
        rw [hm]
    | none =>
      right
      have hm : (loyStep st p).mirror =
          st.mirror ++ [(p.odoo_program_id, createdLoyRow p)] := by
        simp [loyStep, ht, hl]
      rw [hm, List.map_append]
      rfl
  · left
    have hm : (loyStep st p).mirror = st.mirror := by
      simp [loyStep, ht]
    rw [hm]

lemma loyFold_keys (ps : List LoyRec) (st : LState) (k : JSVal)
    (h : k ∈ (ps.foldl loyStep st).mirror.map Prod.fst) :
    k ∈ st.mirror.map Prod.fst ∨ ∃ p ∈ ps, p.odoo_program_id = k := by
  induction ps generalizing st with
  | nil => exact Or.inl (by simpa using h)
  | cons p rest ih =>
    rw [List.foldl_cons] at h
    rcases ih (loyStep st p) h with h1 | h2
    · rcases loyStep_keys st p with hk | hk
      · rw [hk] at h1
        exact Or.inl h1
      · rw [hk] at h1
        rcases List.mem_append.1 h1 with ha | hb
        · exact Or.inl ha
        · have hb2 : k = p.odoo_program_id := by simpa using hb
          exact Or.inr ⟨p, List.mem_cons_self p rest, hb2.symm⟩
    · rcases h2 with ⟨q, hq, hqk⟩
      exact Or.inr ⟨q, List.mem_cons_of_mem p hq, hqk⟩

/-- The invariant `groupByProgram` maintains: distinct nonzero keys, every
group recording its own key as `program_id`. -/
def goodMap (m : List (Int × LoyGroup)) : Prop :=
  (m.map Prod.fst).Nodup ∧ ∀ kv ∈ m, kv.2.program_id = kv.1 ∧ kv.1 ≠ 0

lemma updEntry (row : LoyRow) (kv : Int × LoyGroup) :
    (rowUpd row kv).1 = kv.1 ∧ (rowUpd row kv).2.program_id = kv.2.program_id := by
  by_cases hk : kv.1 = row.program_id <;> simp [rowUpd, hk]

lemma addRow_good (m : List (Int × LoyGroup)) (row : LoyRow) (hm : goodMap m) :
    goodMap (addRow m row) := by
  by_cases h0 : row.program_id = 0
  · have heq : addRow m row = m := by simp [addRow, h0]
    rw [heq]
    exact hm
  · by_cases hf : (m.find? (fun kv => kv.1 = row.program_id)).isSome
    · have hupd : addRow m row = m.map (rowUpd row) := by
        simp [addRow, h0, hf]
      rw [hupd]
      constructor
      · have hkeys : (m.map (rowUpd row)).map Prod.fst = m.map Prod.fst := by
          rw [List.map_map]
          apply List.map_congr_left
          intro kv _
          exact (updEntry row kv).1
        rw [hkeys]
        exact hm.1
      · intro kv hkv
        rcases List.mem_map.1 hkv with ⟨kv0, hkv0, heq⟩
        have h2 := hm.2 kv0 hkv0
        have hu := updEntry row kv0
        rw [← heq]
        exact ⟨hu.2.trans (h2.1.trans hu.1.symm),
               fun hi => h2.2 (hu.1.symm.trans hi)⟩
    · have happ : addRow m row =
          m ++ [(row.program_id, { seedGroup row with product_ids := addMembers [] row })] := by
        simp [addRow, h0, hf]
      rw [happ]
      have hfnone : m.find? (fun kv => kv.1 = row.program_id) = none :=
        Option.not_isSome_iff_eq_none.1 hf
      rw [List.find?_eq_none] at hfnone
      constructor
      · rw [List.map_append, List.nodup_append]
        refine ⟨hm.1, List.nodup_singleton _, ?_⟩
        intro a ha hb
        simp only [List.map_cons, List.map_nil, List.mem_singleton] at hb
        rcases List.mem_map.1 ha with ⟨kv, hkv, hfst⟩
        have h3 := hfnone kv hkv
        simp only [decide_eq_true_eq] at h3
        exact h3 (hfst.trans hb)
      · intro kv hkv
        rcases List.mem_append.1 hkv with ha | hb
        · exact hm.2 kv ha
        · simp only [List.mem_singleton] at hb
          rw [hb]
          exact ⟨rfl, h0⟩

lemma groupByProgram_good (rows : List LoyRow) : goodMap (groupByProgram rows) := by
  unfold groupByProgram
  have key : ∀ (l : List LoyRow) (m : List (Int × LoyGroup)), goodMap m →
      goodMap (l.foldl addRow m) := by
    intro l
    induction l with
    | nil => intro m hm; simpa using hm
    | cons r rest ih =>
      intro m hm
      rw [List.foldl_cons]
      exact ih _ (addRow_good m r hm)
  exact key rows [] ⟨by simp, by simp⟩

end LoyaltySync

section FilterClaims

open LoyaltySync

/-- C9: `filterProgramTypes` keeps exactly the groups whose program type is
(case-insensitively) in the allow-list, every dropped group bumps the
`filtered` counter — leaving every other counter, `skipped` included,
untouched — and a dropped group's program id is never written to the
mirror during the pass. -/
theorem filterProgramTypes_spec (gs : List (Int × LoyGroup)) (st : LoyStats) :
    (filterProgramTypes gs st).1 = gs.filter (fun kv => allowedType kv.2) ∧
    (filterProgramTypes gs st).2 =
      { st with filtered := st.filtered + gs.countP (fun kv => !allowedType kv.2) } ∧
    (∀ (rows : List LoyRow) (m : LoyMirror) (pid : Int) (g : LoyGroup),
      (pid, g) ∈ groupByProgram rows → allowedType g = false →
      lookupLoy m (.num (pid : Rat)) = none →
      lookupLoy (syncAllLoyaltyPrograms rows m).mirror (.num (pid : Rat)) = none) := by
  refine ⟨?_, ?_, ?_⟩
  · unfold filterProgramTypes
    rw [filterProgramTypes_go]
    simp
  · unfold filterProgramTypes
    rw [filterProgramTypes_go]
  · intro rows m pid g hg hna hm
    rw [lookupLoy_eq_none_iff] at hm
    rw [lookupLoy_eq_none_iff]
    intro hk
    simp only [syncAllLoyaltyPrograms] at hk
    rcases loyFold_keys _ _ _ hk with h1 | h2
    · exact hm h1
    · rcases h2 with ⟨p, hp, hpk⟩
      rcases List.mem_map.1 hp with ⟨kv, hkv, rfl⟩
      have hkept : (filterProgramTypes (groupByProgram rows) zeroLoyStats).1 =
          (groupByProgram rows).filter (fun kv => allowedType kv.2) := by
        unfold filterProgramTypes
        rw [filterProgramTypes_go]
        simp
      rw [hkept] at hkv
      have hin := (List.mem_filter.1 hkv).1
      have hal := (List.mem_filter.1 hkv).2
      have good := groupByProgram_good rows
      have h2 := good.2 kv hin
      have hodoo : (transformGroupedProgram kv.2).odoo_program_id =
          .num ((kv.1 : Int) : Rat) := by
        simp only [transformGroupedProgram]
        rw [h2.1]
        simp [h2.2]
      rw [hodoo] at hpk
      have hcast : ((kv.1 : Int) : Rat) = ((pid : Int) : Rat) := by
        injection hpk
      have hkey : kv.1 = pid := by exact_mod_cast hcast
      have hmem2 : (pid, kv.2) ∈ groupByProgram rows := by
        rw [← hkey]
        exact hin
      have : kv.2 = g := keys_nodup_unique good.1 hmem2 hg
      rw [this] at hal
      rw [hna] at hal
      cases hal

/-- A remote loyalty row whose program type is outside the allow-list,
used as the concrete C9 witness input. -/
def wRowCoupon : LoyRow :=
  ⟨6, .str "C", "coupon", "", .bool true, .undefined, 3, 0, 0, 0, 0, 0, 0, 0, 0, 0, 0, 0, 0,
    none, [some ⟨11⟩]⟩

/-- An allow-listed grouped program used as the concrete C9 witness input. -/
def wGroupPromo : LoyGroup :=
  { seedGroup wRowCoupon with program_id := 5, program_type := "promotion" }

/-- A dropped grouped program used as the concrete C9 witness input. -/
def wGroupCoupon : LoyGroup :=
  { seedGroup wRowCoupon with product_ids := addMembers [] wRowCoupon }

/-- Witness for C9: one allowed and one disallowed group on concrete stats,
and the dropped group of a concrete remote row never reaches the mirror. -/
theorem filterProgramTypes_spec_witness :
    (filterProgramTypes [(5, wGroupPromo), (6, wGroupCoupon)] zeroLoyStats).1 =
      [(5, wGroupPromo)] ∧
    (filterProgramTypes [(5, wGroupPromo), (6, wGroupCoupon)] zeroLoyStats).2 =
      ⟨0, 0, 0, 0, 1, 0⟩ ∧
    lookupLoy (syncAllLoyaltyPrograms [wRowCoupon] []).mirror (.num ((6 : Int) : Rat)) =
      none := by
  refine ⟨?_, ?_, ?_⟩
  · rw [(filterProgramTypes_spec [(5, wGroupPromo), (6, wGroupCoupon)] zeroLoyStats).1]
    decide
  · rw [(filterProgramTypes_spec [(5, wGroupPromo), (6, wGroupCoupon)] zeroLoyStats).2.1]
    decide
  · exact (filterProgramTypes_spec [] zeroLoyStats).2.2 [wRowCoupon] [] 6 wGroupCoupon
      (by decide) (by decide) (by decide)

end FilterClaims

namespace LoyaltySync

/-- The set of integer ids a comma-separated string denotes (through the
exact segment-splitting and parsing of `normalizeProductIds`). -/
def idSet (s : String) : Finset Int :=
  (parsedIds s).toFinset

lemma dedup_toFinset (l : List Int) : l.dedup.toFinset = l.toFinset := by
  ext a
  simp [List.mem_toFinset, List.mem_dedup]

lemma sortedDedup_congr (l l2 : List Int) (h : l.toFinset = l2.toFinset) :
    sortedDedup l = sortedDedup l2 := by
  have hperm : List.Perm l.dedup l2.dedup := by
    apply List.perm_of_nodup_nodup_toFinset_eq (List.nodup_dedup l) (List.nodup_dedup l2)
    rw [dedup_toFinset, dedup_toFinset]
    exact h
  unfold sortedDedup
  exact List.eq_of_perm_of_sorted
    ((List.perm_insertionSort _ _).trans (hperm.trans (List.perm_insertionSort _ _).symm))
    (List.sorted_insertionSort _ _) (List.sorted_insertionSort _ _)

lemma parsedIds_empty : parsedIds "" = [] := by decide

lemma normalizeProductIds_congr (a b : String) (h : idSet a = idSet b) :
    normalizeProductIds (.str a) = normalizeProductIds (.str b) := by
  unfold idSet at h
  have core : ∀ s : String, parsedIds s = [] →
      String.intercalate "," ((sortedDedup (parsedIds s)).map (fun n => toString n)) = "" := by
    intro s hs
    rw [hs]
    rfl
  by_cases ha : a = "" <;> by_cases hb : b = ""
  · rw [ha, hb]
  · rw [ha]
    rw [ha, parsedIds_empty] at h
    have hb2 : parsedIds b = [] := by
      rw [← List.toFinset_eq_empty_iff]
      exact h.symm.trans (by decide)
    simp only [normalizeProductIds, hb, if_neg, if_pos rfl]
    exact (core b hb2).symm
  · rw [hb]
    rw [hb, parsedIds_empty] at h
    have ha2 : parsedIds a = [] := by
      rw [← List.toFinset_eq_empty_iff]
      exact h.trans (by decide)
    simp only [normalizeProductIds, ha, if_neg, if_pos rfl]
    exact core a ha2
  · simp only [normalizeProductIds, ha, hb, if_neg]
    rw [sortedDedup_congr (parsedIds a) (parsedIds b) h]

end LoyaltySync

section MemberSetClaims

open LoyaltySync

/-- C6: when the `trigger_product_ids` and `reward_product_ids` strings of
the transformed program and the mirror row denote the same id sets (order,
duplicates, whitespace and empty segments notwithstanding), and every
other entry of the comparison table matches after its normalization, the
loyalty `hasChanges` reports no change: the two member-set fields are
compared through `normalizeProductIds` on both sides and never register a
set-equal difference. -/
theorem member_set_comparison (o l : LoyRec) (a b ra rb : String)
    (hoa : o.trigger_product_ids = .str a) (hlb : l.trigger_product_ids = .str b)
    (hra : o.reward_product_ids = .str ra) (hrb : l.reward_product_ids = .str rb)
    (hset : idSet a = idSet b) (hset2 : idSet ra = idSet rb)
    (hother : ∀ f ∈ loyFields, f.norm ≠ .ids → lfieldMismatch o l f = false) :
    loyHasChanges o l = false := by
  have htrig : lfieldMismatch o l ⟨LoyRec.trigger_product_ids, .ids⟩ = false := by
    unfold lfieldMismatch
    simp only [applyLNorm, hoa, hlb, normalizeProductIds_congr a b hset]
    simp [nullWash]
  have hrew : lfieldMismatch o l ⟨LoyRec.reward_product_ids, .ids⟩ = false := by
    unfold lfieldMismatch
    simp only [applyLNorm, hra, hrb, normalizeProductIds_congr ra rb hset2]
    simp [nullWash]
  unfold loyHasChanges
  rw [List.any_eq_false]
  intro f hf
  rw [Bool.not_eq_true]
  simp only [loyFields, List.mem_cons, List.not_mem_nil, or_false] at hf
  rcases hf with rfl | rfl | rfl | rfl | rfl | rfl | rfl | rfl | rfl | rfl | rfl | rfl | rfl
  all_goals first
    | exact htrig
    | exact hrew
    | exact hother _ (by simp [loyFields]) (by decide)

end MemberSetClaims

/-- A transformed loyalty program used as the concrete C6 witness input. -/
def wProgOdoo : LoyaltySync.LoyRec :=
  ⟨.str "P", .num 0, .str " 9, 7,7", .str "9,7", .num 1, .num 1, .num 1, .num 0,
    .num 5, .num 10, .num 15, .bool true, .num 5, .num 3⟩

/-- A mirror row used as the concrete C6 witness input: same id sets with
different order, duplicates and whitespace, numerically equal scalars in
different representations. -/
def wProgLocal : LoyaltySync.LoyRec :=
  ⟨.str "P", .str "0", .str "7,9", .str "7, 9,", .num 1, .num 1, .num 1, .num 0,
    .str "5.0", .num 10, .num 15, .num 1, .num 5, .num 3⟩

/-- Witness for C6: set-equal member strings (and normalized-equal scalars)
produce no detected change. -/
theorem member_set_comparison_witness :
    LoyaltySync.loyHasChanges wProgOdoo wProgLocal = false :=
  member_set_comparison wProgOdoo wProgLocal " 9, 7,7" "7,9" "9,7" "7, 9,"
    rfl rfl rfl rfl (by decide) (by decide) (by decide)

namespace LoyaltySync

lemma setAdd_toFinset (l : List Int) (x : Int) :
    (setAdd l x).toFinset = insert x l.toFinset := by
  unfold setAdd
  by_cases h : x ∈ l
  · rw [if_pos h]
    exact (Finset.insert_eq_self.2 (List.mem_toFinset.2 h)).symm
  · rw [if_neg h]
    ext a
    simp [or_comm]

lemma setAdd_nodup (l : List Int) (x : Int) (h : l.Nodup) : (setAdd l x).Nodup := by
  unfold setAdd
  by_cases hx : x ∈ l
  · simpa [hx]
  · simp only [hx, if_neg]
    exact List.Nodup.append h (List.nodup_singleton x) (by simpa using hx)

lemma foldl_setAdd_toFinset (c : List Int) (s : List Int) :
    (c.foldl setAdd s).toFinset = s.toFinset ∪ c.toFinset := by
  induction c generalizing s with
  | nil => simp
  | cons x rest ih =>
    rw [List.foldl_cons, ih, setAdd_toFinset]
    ext a
    simp only [Finset.mem_union, Finset.mem_insert, List.mem_toFinset, List.mem_cons]
    tauto

lemma foldl_setAdd_nodup (c : List Int) (s : List Int) (h : s.Nodup) :
    (c.foldl setAdd s).Nodup := by
  induction c generalizing s with
  | nil => simpa
  | cons x rest ih =>
    rw [List.foldl_cons]
    exact ih _ (setAdd_nodup s x h)

lemma addMembers_toFinset (s : List Int) (row : LoyRow) :
    (addMembers s row).toFinset = s.toFinset ∪ (contrib row).toFinset :=
  foldl_setAdd_toFinset (contrib row) s

lemma addMembers_nodup (s : List Int) (row : LoyRow) (h : s.Nodup) :
    (addMembers s row).Nodup :=
  foldl_setAdd_nodup (contrib row) s h

lemma rowUpd_key (row : LoyRow) (kv : Int × LoyGroup) : (rowUpd row kv).1 = kv.1 :=
  (updEntry row kv).1

lemma find?_map_rowUpd (m : List (Int × LoyGroup)) (row : LoyRow) (pid : Int) :
    (m.map (rowUpd row)).find? (fun kv => kv.1 = pid) =
      (m.find? (fun kv => kv.1 = pid)).map (rowUpd row) := by
  induction m with
  | nil => rfl
  | cons kv rest ih =>
    rw [List.map_cons, List.find?_cons, List.find?_cons]
    by_cases h : kv.1 = pid
    · rw [rowUpd_key] at *
      simp [h]
    · have h2 : ((rowUpd row kv).1 = pid) = False := by
        rw [rowUpd_key]
        simp [h]
      simp only [rowUpd_key, h, decide_eq_true_eq] at *
      simp [h, ih]

lemma find?_append_elem (m : List (Int × LoyGroup)) (e : Int × LoyGroup) (pid : Int) :
    (m ++ [e]).find? (fun kv => kv.1 = pid) =
      match m.find? (fun kv => kv.1 = pid) with
      | some kv => some kv
      | none => if e.1 = pid then some e else none := by
  induction m with
  | nil =>
    simp only [List.nil_append, List.find?_nil, List.find?_cons]
    by_cases h : e.1 = pid <;> simp [h]
  | cons kv rest ih =>
    rw [List.cons_append, List.find?_cons, List.find?_cons]
    by_cases h : kv.1 = pid <;> simp [h, ih]

end LoyaltySync

namespace LoyaltySync

/-- The member ids a row contributes, as a set. -/
def contribF (row : LoyRow) : Finset Int := (contrib row).toFinset

/-- Accumulated member-id set of a list of rows. -/
def unionC (s : Finset Int) (l : List LoyRow) : Finset Int :=
  l.foldl (fun acc r => acc ∪ contribF r) s

lemma unionC_cons (s : Finset Int) (r : LoyRow) (l : List LoyRow) :
    unionC s (r :: l) = unionC (s ∪ contribF r) l := rfl

lemma find?_key {m : List (Int × LoyGroup)} {pid : Int} {kv : Int × LoyGroup}
    (h : m.find? (fun kv => kv.1 = pid) = some kv) : kv.1 = pid := by
  have := List.find?_some h
  simpa using this

lemma members_foldl (rows : List LoyRow) (m : List (Int × LoyGroup)) (pid : Int)
    (hpid : pid ≠ 0) :
    ((rows.foldl addRow m).find? (fun kv => kv.1 = pid)).map
        (fun kv => kv.2.product_ids.toFinset) =
      match (m.find? (fun kv => kv.1 = pid)).map (fun kv => kv.2.product_ids.toFinset) with
      | some s => some (unionC s (rows.filter (fun r => r.program_id = pid)))
      | none =>
          if rows.any (fun r => r.program_id = pid) then
            some (unionC ∅ (rows.filter (fun r => r.program_id = pid)))
          else none := by
  induction rows generalizing m with
  | nil =>
    cases hfind : m.find? (fun kv => kv.1 = pid) <;> simp [hfind, unionC]
  | cons row rest ih =>
    rw [List.foldl_cons]
    by_cases h0 : row.program_id = 0
    · have haddr : addRow m row = m := by simp [addRow, h0]
      have hne : (row.program_id = pid) = False := by
        simp [h0]
        intro hc
        exact hpid hc.symm
      rw [haddr, ih m]
      have hfilter : (row :: rest).filter (fun r => r.program_id = pid) =
          rest.filter (fun r => r.program_id = pid) := by
        rw [List.filter_cons]
        simp [hne]
      have hany : (row :: rest).any (fun r => r.program_id = pid) =
          rest.any (fun r => r.program_id = pid) := by
        rw [List.any_cons]
        simp [hne]
      rw [hfilter, hany]
    · by_cases hk : row.program_id = pid
      · have hfilter : (row :: rest).filter (fun r => r.program_id = pid) =
            row :: rest.filter (fun r => r.program_id = pid) := by
          rw [List.filter_cons]
          simp [hk]
        have hany : (row :: rest).any (fun r => r.program_id = pid) = true := by
          rw [List.any_cons]
          simp [hk]
        by_cases hf : (m.find? (fun kv => kv.1 = row.program_id)).isSome
        · have haddr : addRow m row = m.map (rowUpd row) := by
            simp [addRow, h0, hf]
          rw [haddr, ih]
          rw [hk] at hf
          rcases Option.isSome_iff_exists.1 hf with ⟨kv, hkv⟩
          have hkey := find?_key hkv
          have hupd : (m.map (rowUpd row)).find? (fun kv => kv.1 = pid) =
              some (rowUpd row kv) := by
            rw [find?_map_rowUpd, hkv]
            rfl
          have hval : (rowUpd row kv).2.product_ids.toFinset =
              kv.2.product_ids.toFinset ∪ contribF row := by
            unfold rowUpd
            rw [if_pos (hkey.trans hk.symm)]
            exact addMembers_toFinset kv.2.product_ids row
          rw [hupd, hkv]
          simp only [Option.map_some']
          rw [hfilter]
          simp [hval, unionC_cons]
        · have haddr : addRow m row =
              m ++ [(row.program_id, { seedGroup row with product_ids := addMembers [] row })] := by
            simp [addRow, h0, hf]
          rw [haddr, ih]
          have hfnone : m.find? (fun kv => kv.1 = pid) = none := by
            rw [← hk]
            exact Option.not_isSome_iff_eq_none.1 hf
          have hfind2 : (m ++ [(row.program_id,
              { seedGroup row with product_ids := addMembers [] row })]).find?
                (fun kv => kv.1 = pid) =
              some (row.program_id, { seedGroup row with product_ids := addMembers [] row }) := by
            rw [find?_append_elem, hfnone]
            simp [hk]
          rw [hfind2, hfnone]
          simp only [Option.map_some', Option.map_none']
          have hval : (addMembers [] row).toFinset = contribF row := by
            rw [addMembers_toFinset]
            simp [contribF]
          rw [hfilter, hany, unionC_cons]
          simp [hval]
      · have hne : (row.program_id = pid) = False := by simp [hk]
        have hfilter : (row :: rest).filter (fun r => r.program_id = pid) =
            rest.filter (fun r => r.program_id = pid) := by
          rw [List.filter_cons]
          simp [hne]
        have hany : (row :: rest).any (fun r => r.program_id = pid) =
            rest.any (fun r => r.program_id = pid) := by
          rw [List.any_cons]
          simp [hne]
        by_cases hf : (m.find? (fun kv => kv.1 = row.program_id)).isSome
        · have haddr : addRow m row = m.map (rowUpd row) := by
            simp [addRow, h0, hf]
          rw [haddr, ih]
          have hsame : ((m.map (rowUpd row)).find? (fun kv => kv.1 = pid)).map
              (fun kv => kv.2.product_ids.toFinset) =
              (m.find? (fun kv => kv.1 = pid)).map (fun kv => kv.2.product_ids.toFinset) := by
            rw [find?_map_rowUpd]
            cases hfm : m.find? (fun kv => kv.1 = pid) with
            | none => rfl
            | some kv =>
              have hkey := find?_key hfm
              have : rowUpd row kv = kv := by
                unfold rowUpd
                rw [if_neg]
                rw [hkey]
                exact fun hc => hk hc.symm
              simp [this]
          rw [hsame, hfilter, hany]
        · have haddr : addRow m row =
              m ++ [(row.program_id, { seedGroup row with product_ids := addMembers [] row })] := by
            simp [addRow, h0, hf]
          rw [haddr, ih]
          have hsame : (m ++ [(row.program_id,
              { seedGroup row with product_ids := addMembers [] row })]).find?
                (fun kv => kv.1 = pid) = m.find? (fun kv => kv.1 = pid) := by
            rw [find?_append_elem]
            cases hfm : m.find? (fun kv => kv.1 = pid) with
            | none => simp [hk]
            | some kv => rfl
          rw [hsame, hfilter, hany]

end LoyaltySync

namespace LoyaltySync

lemma addRow_nodupIds (m : List (Int × LoyGroup)) (row : LoyRow)
    (h : ∀ kv ∈ m, kv.2.product_ids.Nodup) :
    ∀ kv ∈ addRow m row, kv.2.product_ids.Nodup := by
  intro kv hkv
  unfold addRow at hkv
  by_cases h0 : row.program_id = 0
  · rw [if_pos h0] at hkv
    exact h kv hkv
  · rw [if_neg h0] at hkv
    by_cases hf : (m.find? (fun kv => kv.1 = row.program_id)).isSome
    · rw [if_pos hf] at hkv
      rcases List.mem_map.1 hkv with ⟨kv0, hkv0, heq⟩
      rw [← heq]
      unfold rowUpd
      by_cases hk : kv0.1 = row.program_id
      · rw [if_pos hk]
        exact addMembers_nodup _ _ (h kv0 hkv0)
      · rw [if_neg hk]
        exact h kv0 hkv0
    · rw [if_neg hf] at hkv
      rcases List.mem_append.1 hkv with ha | hb
      · exact h kv ha
      · simp only [List.mem_singleton] at hb
        rw [hb]
        exact addMembers_nodup [] row List.nodup_nil

lemma groupByProgram_nodupIds (rows : List LoyRow) :
    ∀ kv ∈ groupByProgram rows, kv.2.product_ids.Nodup := by
  unfold groupByProgram
  have key : ∀ (l : List LoyRow) (m : List (Int × LoyGroup)),
      (∀ kv ∈ m, kv.2.product_ids.Nodup) →
      ∀ kv ∈ l.foldl addRow m, kv.2.product_ids.Nodup := by
    intro l
    induction l with
    | nil =>
      intro m hm
      simpa using hm
    | cons r rest ih =>
      intro m hm
      rw [List.foldl_cons]
      exact ih _ (addRow_nodupIds m r hm)
  exact key rows [] (by simp)

lemma any_perm {α : Type} {l l2 : List α} (h : List.Perm l l2) (p : α → Bool) :
    l.any p = l2.any p := by
  cases hb : l2.any p
  · rw [List.any_eq_false] at hb ⊢
    intro x hx
    exact hb x (h.mem_iff.1 hx)
  · rw [List.any_eq_true] at hb ⊢
    rcases hb with ⟨x, hx, hpx⟩
    exact ⟨x, h.mem_iff.2 hx, hpx⟩

lemma unionC_perm (l l2 : List LoyRow) (h : List.Perm l l2) (s : Finset Int) :
    unionC s l = unionC s l2 := by
  induction h generalizing s with
  | nil => rfl
  | cons x hp ih => rw [unionC_cons, unionC_cons, ih]
  | swap x y l =>
    rw [unionC_cons, unionC_cons, unionC_cons, unionC_cons, Finset.union_right_comm]
  | trans hp1 hp2 ih1 ih2 => rw [ih1, ih2]

lemma canonicalJoin_congr (l l2 : List Int) (h1 : l.Nodup) (h2 : l2.Nodup)
    (h : l.toFinset = l2.toFinset) : canonicalJoin l = canonicalJoin l2 := by
  have hperm : List.Perm l l2 := List.perm_of_nodup_nodup_toFinset_eq h1 h2 h
  unfold canonicalJoin
  have hsort : List.insertionSort (· ≤ ·) l = List.insertionSort (· ≤ ·) l2 :=
    List.eq_of_perm_of_sorted
      ((List.perm_insertionSort _ _).trans (hperm.trans (List.perm_insertionSort _ _).symm))
      (List.sorted_insertionSort _ _) (List.sorted_insertionSort _ _)
  rw [hsort]

lemma groupByProgram_find_zero (rows : List LoyRow) :
    (groupByProgram rows).find? (fun kv => kv.1 = (0 : Int)) = none := by
  cases hf : (groupByProgram rows).find? (fun kv => kv.1 = (0 : Int)) with
  | none => rfl
  | some kv =>
    have hkey : kv.1 = 0 := find?_key hf
    have hmem := List.mem_of_find?_eq_some hf
    exact absurd hkey ((groupByProgram_good rows).2 kv hmem).2

lemma trigger_eq (g : LoyGroup) :
    (transformGroupedProgram g).trigger_product_ids = .str (canonicalJoin g.product_ids) :=
  rfl

end LoyaltySync

section GroupingClaims

open LoyaltySync

/-- C3: grouping is order-independent — for every permutation of the raw
remote loyalty rows, `groupByProgram` followed by
`transformGroupedProgram` yields, for each program id, the identical
canonical member-id string in `trigger_product_ids` (the sorted,
deduplicated, comma-joined id set). -/
theorem grouping_order_independent (rows rows2 : List LoyRow)
    (hperm : List.Perm rows rows2) (pid : Int) :
    ((groupByProgram rows).find? (fun kv => kv.1 = pid)).map
        (fun kv => (transformGroupedProgram kv.2).trigger_product_ids) =
      ((groupByProgram rows2).find? (fun kv => kv.1 = pid)).map
        (fun kv => (transformGroupedProgram kv.2).trigger_product_ids) := by
  by_cases hpid : pid = 0
  · rw [hpid, groupByProgram_find_zero, groupByProgram_find_zero]
  · have h1 := members_foldl rows [] pid hpid
    have h2 := members_foldl rows2 [] pid hpid
    rw [show (([] : List (Int × LoyGroup)).find? (fun kv => kv.1 = pid)) = none from rfl] at h1 h2
    simp only [Option.map_none'] at h1 h2
    rw [show rows.foldl addRow [] = groupByProgram rows from rfl] at h1
    rw [show rows2.foldl addRow [] = groupByProgram rows2 from rfl] at h2
    have hany := any_perm hperm (fun r => decide (r.program_id = pid))
    have hu := unionC_perm _ _ (hperm.filter (fun r => decide (r.program_id = pid)))
      (∅ : Finset Int)
    by_cases hb : rows2.any (fun r => decide (r.program_id = pid))
    · rw [if_pos hb] at h2
      rw [if_pos (hany.trans hb)] at h1
      rcases Option.map_eq_some'.1 h1 with ⟨kv1, hkv1, hv1⟩
      rcases Option.map_eq_some'.1 h2 with ⟨kv2, hkv2, hv2⟩
      rw [hkv1, hkv2]
      simp only [Option.map_some', Option.some.injEq, trigger_eq, JSVal.str.injEq]
      apply canonicalJoin_congr
      · exact groupByProgram_nodupIds rows kv1 (List.mem_of_find?_eq_some hkv1)
      · exact groupByProgram_nodupIds rows2 kv2 (List.mem_of_find?_eq_some hkv2)
      · rw [hv1, hv2, hu]
    · rw [if_neg hb] at h2
      have hb1 : ¬ rows.any (fun r => decide (r.program_id = pid)) = true := by
        rw [hany]
        exact hb
      rw [if_neg hb1] at h1
      rw [Option.map_eq_none'.1 h1, Option.map_eq_none'.1 h2]

/-- One grouped-type remote row for group 501 carrying member id 7. -/
def wRow501a : LoyRow :=
  ⟨501, .str "P", "promotion", "", .bool true, .undefined, 9, 0, 0, 0, 0, 0, 0, 0, 0, 0, 0, 0,
    0, none, [some ⟨7⟩]⟩

/-- One grouped-type remote row for group 501 carrying member id 9. -/
def wRow501b : LoyRow :=
  ⟨501, .str "P", "promotion", "", .bool true, .undefined, 9, 0, 0, 0, 0, 0, 0, 0, 0, 0, 0, 0,
    0, none, [some ⟨9⟩]⟩

/-- Witness for C3: the two arrival orders of the 501 rows yield the same
`trigger_product_ids`, namely `"7,9"`. -/
theorem grouping_order_independent_witness :
    ((groupByProgram [wRow501a, wRow501b]).find? (fun kv => kv.1 = 501)).map
        (fun kv => (transformGroupedProgram kv.2).trigger_product_ids) =
      ((groupByProgram [wRow501b, wRow501a]).find? (fun kv => kv.1 = 501)).map
        (fun kv => (transformGroupedProgram kv.2).trigger_product_ids) ∧
    ((groupByProgram [wRow501a, wRow501b]).find? (fun kv => kv.1 = 501)).map
        (fun kv => (transformGroupedProgram kv.2).trigger_product_ids) =
      some (.str "7,9") :=
  ⟨grouping_order_independent [wRow501a, wRow501b] [wRow501b, wRow501a] (by decide) 501,
   by decide⟩

end GroupingClaims

/-- `find?` by key over an association list extended on the right. -/
lemma find?_append_pair {α β : Type} [DecidableEq α] (m : List (α × β)) (e : α × β) (k : α) :
    (m ++ [e]).find? (fun kv => kv.1 = k) =
      match m.find? (fun kv => kv.1 = k) with
      | some kv => some kv
      | none => if e.1 = k then some e else none := by
  induction m with
  | nil =>
    simp only [List.nil_append, List.find?_nil, List.find?_cons]
    by_cases h : e.1 = k <;> simp [h]
  | cons kv rest ih =>
    rw [List.cons_append, List.find?_cons, List.find?_cons]
    by_cases h : kv.1 = k <;> simp [h, ih]

/-- `a || b` is never nullish when `b` is not. -/
lemma jsOr_not_nullish (a b : JSVal) (hb1 : b ≠ .null) (hb2 : b ≠ .undefined) :
    jsOr a b ≠ .null ∧ jsOr a b ≠ .undefined := by
  unfold jsOr
  by_cases h : a.truthy
  · rw [if_pos h]
    constructor <;> intro hc <;> rw [hc] at h <;> simp [JSVal.truthy] at h
  · rw [if_neg h]
    exact ⟨hb1, hb2⟩

namespace ProductSync

lemma extractName_not_nullish (n : NameVal) :
    extractName n ≠ .null ∧ extractName n ≠ .undefined := by
  cases n with
  | v x => cases x <;> simp [extractName]
  | obj fields =>
    unfold extractName
    exact jsOr_not_nullish _ _
      (jsOr_not_nullish _ _ (jsOr_not_nullish _ _ (jsOr_not_nullish _ _
        (by simp) (by simp)).1 (jsOr_not_nullish _ _ (by simp) (by simp)).2).1
        (jsOr_not_nullish _ _ (jsOr_not_nullish _ _ (by simp) (by simp)).1
          (jsOr_not_nullish _ _ (by simp) (by simp)).2).2).1
      (jsOr_not_nullish _ _ (jsOr_not_nullish _ _ (jsOr_not_nullish _ _
        (by simp) (by simp)).1 (jsOr_not_nullish _ _ (by simp) (by simp)).2).1
        (jsOr_not_nullish _ _ (jsOr_not_nullish _ _ (by simp) (by simp)).1
          (jsOr_not_nullish _ _ (by simp) (by simp)).2).2).2

lemma extractCategory_not_nullish (n : NameVal) :
    extractCategory n ≠ .null ∧ extractCategory n ≠ .undefined := by
  cases n with
  | v x => cases x <;> simp [extractCategory]
  | obj fields =>
    unfold extractCategory
    exact jsOr_not_nullish _ _
      (jsOr_not_nullish _ _ (jsOr_not_nullish _ _ (jsOr_not_nullish _ _
        (by simp) (by simp)).1 (jsOr_not_nullish _ _ (by simp) (by simp)).2).1
        (jsOr_not_nullish _ _ (jsOr_not_nullish _ _ (by simp) (by simp)).1
          (jsOr_not_nullish _ _ (by simp) (by simp)).2).2).1
      (jsOr_not_nullish _ _ (jsOr_not_nullish _ _ (jsOr_not_nullish _ _
        (by simp) (by simp)).1 (jsOr_not_nullish _ _ (by simp) (by simp)).2).1
        (jsOr_not_nullish _ _ (jsOr_not_nullish _ _ (by simp) (by simp)).1
          (jsOr_not_nullish _ _ (by simp) (by simp)).2).2).2

lemma int_norm_nullish_self (v : JSVal) :
    nullWash (applyNorm .int (jsNullish v .null)) = nullWash (applyNorm .int v) := by
  cases v <;> simp [jsNullish, applyNorm, nullWash, jsParseInt]

lemma raw_norm_nullish_self (v : JSVal) :
    nullWash (applyNorm .raw (jsNullish v .null)) = nullWash (applyNorm .raw v) := by
  cases v <;> simp [jsNullish, applyNorm, nullWash]

/-- Whether a transformed entity's normalized active bit coincides with the
bit the create/update write path (`active !== false ? 1 : 0`) stores. -/
def activeConsistent (p : TransProd) : Prop :=
  normalizeActive p.active = (if p.active = .bool false then 0 else 1)

instance (p : TransProd) : Decidable (activeConsistent p) :=
  inferInstanceAs
    (Decidable (normalizeActive p.active = (if p.active = .bool false then 0 else 1)))

lemma transform_name (raw : RawProduct) :
    (transformOdooProduct raw).name = extractName raw.name := rfl

lemma transform_description (raw : RawProduct) :
    (transformOdooProduct raw).description = extractName raw.description := rfl

lemma transform_category (raw : RawProduct) :
    (transformOdooProduct raw).category = extractCategory raw.category := rfl

lemma transform_list_price (raw : RawProduct) :
    (transformOdooProduct raw).list_price = .num (jsOrNum (jsParseFloat raw.list_price) 0) :=
  rfl

lemma transform_stock (raw : RawProduct) :
    (transformOdooProduct raw).stock =
      .num ((jsOrInt (jsParseInt (jsOr raw.stock raw.qty_available)) 0 : Int) : Rat) := rfl

lemma transform_tax_rate (raw : RawProduct) :
    (transformOdooProduct raw).tax_rate =
      .num (jsOrNum (jsParseFloat raw.tax_rate) (mkRat 3 20)) := rfl

/-- A mirror row freshly written by `createProduct` from a transformed
product compares as unchanged against that product, provided the active
bit it stored agrees with the detector's normalization of the transformed
active value. -/
lemma hasChanges_fresh (raw : RawProduct)
    (hact : activeConsistent (transformOdooProduct raw)) :
    hasChanges (transformOdooProduct raw) (createdRow (transformOdooProduct raw)) = false := by
  rw [hasChanges, List.any_eq_false]
  intro f hf
  rw [Bool.not_eq_true]
  simp only [prodFields, List.mem_cons, List.not_mem_nil, or_false] at hf
  rcases hf with rfl | rfl | rfl | rfl | rfl | rfl | rfl | rfl | rfl
  · simp [fieldMismatch, createdRow, int_norm_nullish_self]
  · have hne := extractName_not_nullish raw.name
    simp [fieldMismatch, createdRow, transform_name, jsNullish, hne.1, hne.2]
  · simp [fieldMismatch, createdRow, raw_norm_nullish_self]
  · simp [fieldMismatch, createdRow, raw_norm_nullish_self]
  · simp [fieldMismatch, createdRow, transform_list_price, jsNullish]
  · simp [fieldMismatch, createdRow, transform_stock, jsNullish]
  · have hne := extractCategory_not_nullish raw.category
    simp [fieldMismatch, createdRow, transform_category, jsNullish, hne.1, hne.2]
  · simp [fieldMismatch, createdRow, transform_tax_rate, jsNullish]
  · simp only [fieldMismatch, createdRow, applyNorm]
    unfold activeConsistent at hact
    by_cases hb : (transformOdooProduct raw).active = .bool false
    · rw [if_pos hb] at hact
      simp only [hb, hact]
      decide
    · rw [if_neg hb] at hact
      simp only [hact, if_neg hb]
      decide

end ProductSync

namespace ProductSync

/-- A transformed product the reconciler will actually process (usable id
and template id). -/
def nonSkipped (p : TransProd) : Bool :=
  p.id.truthy && p.template_id.truthy

/-- The processed (non-skipped) transformed entities of a remote dataset,
in dataset order. -/
def transItems (ds : List RawProduct) : List TransProd :=
  (ds.map transformOdooProduct).filter nonSkipped

/-- The mirror rows a first run over an empty mirror writes. -/
def createdMirror (ds : List RawProduct) : Mirror :=
  (transItems ds).map (fun p => (p.id, createdRow p))

/-- How many remote entities of the dataset are skipped. -/
def skCount (ds : List RawProduct) : Nat :=
  ds.countP (fun raw => !(nonSkipped (transformOdooProduct raw)))

lemma syncStep_skip (m : Mirror) (s : ProdStats) (raw : RawProduct)
    (hns : nonSkipped (transformOdooProduct raw) = false) :
    syncStep ⟨m, s⟩ raw = ⟨m, { s with skipped := s.skipped + 1 }⟩ := by
  unfold syncStep
  by_cases hid : (transformOdooProduct raw).id.truthy
  · have htid : (transformOdooProduct raw).template_id.truthy = false := by
      unfold nonSkipped at hns
      rw [hid] at hns
      simpa using hns
    simp [hid, htid]
  · simp [hid]

lemma transItems_cons_skip (raw : RawProduct) (rest : List RawProduct)
    (hns : nonSkipped (transformOdooProduct raw) = false) :
    transItems (raw :: rest) = transItems rest := by
  unfold transItems
  rw [List.map_cons, List.filter_cons]
  simp [hns]

lemma transItems_cons_keep (raw : RawProduct) (rest : List RawProduct)
    (hns : nonSkipped (transformOdooProduct raw) = true) :
    transItems (raw :: rest) = transformOdooProduct raw :: transItems rest := by
  unfold transItems
  rw [List.map_cons, List.filter_cons]
  simp [hns]

lemma skCount_cons_skip (raw : RawProduct) (rest : List RawProduct)
    (hns : nonSkipped (transformOdooProduct raw) = false) :
    skCount (raw :: rest) = skCount rest + 1 := by
  unfold skCount
  rw [List.countP_cons]
  simp [hns]

lemma skCount_cons_keep (raw : RawProduct) (rest : List RawProduct)
    (hns : nonSkipped (transformOdooProduct raw) = true) :
    skCount (raw :: rest) = skCount rest := by
  unfold skCount
  rw [List.countP_cons]
  simp [hns]

/-- A first pass over a mirror containing none of the dataset's ids, with
pairwise-distinct non-skipped ids, creates exactly one row per non-skipped
entity and skips the rest. -/
lemma syncRun_fresh (ds : List RawProduct) (m : Mirror) (s : ProdStats)
    (hdisj : ∀ p ∈ transItems ds, lookupRow m p.id = none)
    (hnodup : ((transItems ds).map TransProd.id).Nodup) :
    ds.foldl syncStep ⟨m, s⟩ =
      ⟨m ++ createdMirror ds,
       { s with created := s.created + (transItems ds).length,
                skipped := s.skipped + skCount ds }⟩ := by
  induction ds generalizing m s with
  | nil =>
    simp [transItems, createdMirror, skCount]
  | cons raw rest ih =>
    rw [List.foldl_cons]
    by_cases hns : nonSkipped (transformOdooProduct raw)
    · have hmem : transformOdooProduct raw ∈ transItems (raw :: rest) := by
        rw [transItems_cons_keep raw rest hns]
        exact List.mem_cons_self _ _
      have hlook := hdisj _ hmem
      have hstep : syncStep ⟨m, s⟩ raw =
          ⟨m ++ [((transformOdooProduct raw).id, createdRow (transformOdooProduct raw))],
           { s with created := s.created + 1 }⟩ := by
        unfold syncStep
        have hns3 : (transformOdooProduct raw).id.truthy = true ∧
            (transformOdooProduct raw).template_id.truthy = true := by
          unfold nonSkipped at hns
          simpa using hns
        have hid := hns3.1
        have htid := hns3.2
        simp [hid, htid, hlook, insertRow]
      rw [hstep]
      have hti := transItems_cons_keep raw rest hns
      have hnodup2 : ((transItems (raw :: rest)).map TransProd.id).Nodup := hnodup
      rw [hti, List.map_cons, List.nodup_cons] at hnodup2
      have hdisj2 : ∀ p ∈ transItems rest,
          lookupRow (m ++ [((transformOdooProduct raw).id,
            createdRow (transformOdooProduct raw))]) p.id = none := by
        intro p hp
        have hl := hdisj p (by rw [hti]; exact List.mem_cons_of_mem _ hp)
        unfold lookupRow at hl ⊢
        rw [find?_append_pair]
        cases hfm : m.find? (fun kv => kv.1 = p.id) with
        | some kv => rw [hfm] at hl; cases hl
        | none =>
          have hne : (transformOdooProduct raw).id ≠ p.id := by
            intro hc
            exact hnodup2.1 (hc ▸ List.mem_map.2 ⟨p, hp, rfl⟩)
          simp [hne]
      rw [ih _ _ hdisj2 hnodup2.2]
      unfold createdMirror
      rw [hti, skCount_cons_keep raw rest hns, List.map_cons]
      simp only [PState.mk.injEq]
      refine ⟨?_, ?_⟩
      · rw [List.append_assoc]
        rfl
      · simp only [ProdStats.mk.injEq, List.length_cons, true_and, and_true]
        omega
    · have hns2 : nonSkipped (transformOdooProduct raw) = false := by
        simpa using hns
      rw [syncStep_skip m s raw hns2]
      have hti := transItems_cons_skip raw rest hns2
      have hdisj2 : ∀ p ∈ transItems rest, lookupRow m p.id = none := by
        intro p hp
        exact hdisj p (by rw [hti]; exact hp)
      have hnodup2 : ((transItems rest).map TransProd.id).Nodup := by
        rw [hti] at hnodup
        exact hnodup
      rw [ih _ _ hdisj2 hnodup2]
      unfold createdMirror
      rw [hti, skCount_cons_skip raw rest hns2]
      simp only [PState.mk.injEq, true_and]
      simp only [ProdStats.mk.injEq, List.length_cons, true_and, and_true]
      omega

/-- A pass over a mirror whose row for every non-skipped entity is exactly
the freshly created one reports every non-skipped entity unchanged and
writes nothing. -/
lemma syncRun_saturated (ds : List RawProduct) (m : Mirror) (s : ProdStats)
    (hsat : ∀ raw ∈ ds, nonSkipped (transformOdooProduct raw) = true →
        lookupRow m (transformOdooProduct raw).id =
          some (createdRow (transformOdooProduct raw)))
    (hact : ∀ raw ∈ ds, nonSkipped (transformOdooProduct raw) = true →
        activeConsistent (transformOdooProduct raw)) :
    ds.foldl syncStep ⟨m, s⟩ =
      ⟨m, { s with unchanged := s.unchanged + (transItems ds).length,
                   skipped := s.skipped + skCount ds }⟩ := by
  induction ds generalizing s with
  | nil =>
    simp [transItems, skCount]
  | cons raw rest ih =>
    rw [List.foldl_cons]
    by_cases hns : nonSkipped (transformOdooProduct raw)
    · have hns3 : (transformOdooProduct raw).id.truthy = true ∧
          (transformOdooProduct raw).template_id.truthy = true := by
        unfold nonSkipped at hns
        simpa using hns
      have hid := hns3.1
      have htid := hns3.2
      have hlook := hsat raw (List.mem_cons_self _ _) hns
      have hfresh := hasChanges_fresh raw (hact raw (List.mem_cons_self _ _) hns)
      have hstep : syncStep ⟨m, s⟩ raw = ⟨m, { s with unchanged := s.unchanged + 1 }⟩ := by
        unfold syncStep
        simp [hid, htid, hlook, hfresh]
      rw [hstep]
      rw [ih _ (fun r hr hn => hsat r (List.mem_cons_of_mem _ hr) hn)
            (fun r hr hn => hact r (List.mem_cons_of_mem _ hr) hn)]
      rw [transItems_cons_keep raw rest hns, skCount_cons_keep raw rest hns]
      simp only [PState.mk.injEq, true_and]
      simp only [ProdStats.mk.injEq, List.length_cons, true_and, and_true]
      omega
    · have hns2 : nonSkipped (transformOdooProduct raw) = false := by
        simpa using hns
      rw [syncStep_skip m s raw hns2]
      rw [ih _ (fun r hr hn => hsat r (List.mem_cons_of_mem _ hr) hn)
            (fun r hr hn => hact r (List.mem_cons_of_mem _ hr) hn)]
      rw [transItems_cons_skip raw rest hns2, skCount_cons_skip raw rest hns2]
      simp only [PState.mk.injEq, true_and]
      simp only [ProdStats.mk.injEq, List.length_cons, true_and, and_true]
      omega

lemma lookup_createdMirror (l : List TransProd) (hnodup : (l.map TransProd.id).Nodup)
    (p : TransProd) (hp : p ∈ l) :
    lookupRow (l.map (fun q => (q.id, createdRow q))) p.id = some (createdRow p) := by
  induction l with
  | nil => cases hp
  | cons q rest ih =>
    rw [List.map_cons, List.nodup_cons] at hnodup
    rcases List.mem_cons.1 hp with rfl | hmem
    · unfold lookupRow
      rw [List.map_cons, List.find?_cons]
      simp
    · have hne : q.id = p.id → False := by
        intro hc
        exact hnodup.1 (hc ▸ List.mem_map.2 ⟨p, hmem, rfl⟩)
      unfold lookupRow
      rw [List.map_cons, List.find?_cons]
      have : (decide ((q.id, createdRow q).1 = p.id)) = false := by
        simpa using hne
      rw [this]
      exact ih hnodup.2 hmem

end ProductSync

section IdempotenceClaims

open ProductSync

/-- A remote product whose active flag arrives as the number `0`, the
concrete C1 counterexample input. -/
def cxRawActive0 : RawProduct :=
  ⟨.undefined, .num 1, .num 2, .undefined, .v (.str "A"), .v .undefined, .undefined, .undefined, .undefined,
    .v .undefined, .undefined, .num 0, .undefined, .undefined⟩

/-- C1 counterexample: for the one-product dataset with `active: 0`, the
first run creates the row (storing `active = 1`, since the write path
tests `!== false` only), and the second run immediately after, with the
mirror holding exactly the rows the first run wrote, performs an update
and reports nothing unchanged — the claim demands zero updates and
`unchanged = 1` there, and a freshly created row that compares as
unchanged. -/
theorem reconcile_not_idempotent_on_numeric_active :
    (syncAllProducts [cxRawActive0] []).stats.created = 1 ∧
    (syncAllProducts [cxRawActive0]
        (syncAllProducts [cxRawActive0] []).mirror).stats.updated = 1 ∧
    (syncAllProducts [cxRawActive0]
        (syncAllProducts [cxRawActive0] []).mirror).stats.unchanged = 0 ∧
    hasChanges (transformOdooProduct cxRawActive0)
        (createdRow (transformOdooProduct cxRawActive0)) = true := by
  decide

/-- C1 amended: reconciliation is idempotent for every remote dataset in
which each entity's transformed active value normalizes to the same bit
the creation write stores (true in particular for genuine boolean or
absent active flags) and the non-skipped entities carry pairwise-distinct
ids: starting from an empty mirror, a second `syncAllProducts` run
immediately after the first performs zero creates and zero updates,
reports `unchanged` equal to the number of non-skipped remote entities,
and leaves the mirror rows exactly as the first run wrote them. -/
theorem reconcile_idempotent (ds : List RawProduct)
    (hact : ∀ raw ∈ ds, activeConsistent (transformOdooProduct raw))
    (hnodup : ((transItems ds).map TransProd.id).Nodup) :
    (syncAllProducts ds (syncAllProducts ds []).mirror).stats.created = 0 ∧
    (syncAllProducts ds (syncAllProducts ds []).mirror).stats.updated = 0 ∧
    (syncAllProducts ds (syncAllProducts ds []).mirror).stats.unchanged =
      (transItems ds).length ∧
    (syncAllProducts ds (syncAllProducts ds []).mirror).mirror =
      (syncAllProducts ds []).mirror := by
  have h1 : syncAllProducts ds [] =
      ⟨createdMirror ds,
       { zeroStats with created := (transItems ds).length, skipped := skCount ds }⟩ := by
    unfold syncAllProducts
    rw [syncRun_fresh ds [] zeroStats (fun p hp => rfl) hnodup]
    simp [zeroStats]
  have hsat : ∀ raw ∈ ds, nonSkipped (transformOdooProduct raw) = true →
      lookupRow (createdMirror ds) (transformOdooProduct raw).id =
        some (createdRow (transformOdooProduct raw)) := by
    intro raw hraw hns
    have hp : transformOdooProduct raw ∈ transItems ds := by
      unfold transItems
      exact List.mem_filter.2 ⟨List.mem_map.2 ⟨raw, hraw, rfl⟩, hns⟩
    exact lookup_createdMirror (transItems ds) hnodup _ hp
  have h2 : syncAllProducts ds (createdMirror ds) =
      ⟨createdMirror ds,
       { zeroStats with unchanged := (transItems ds).length, skipped := skCount ds }⟩ := by
    unfold syncAllProducts
    rw [syncRun_saturated ds (createdMirror ds) zeroStats hsat
      (fun raw hraw _ => hact raw hraw)]
    simp [zeroStats]
  rw [h1]
  simp only []
  rw [h2]
  exact ⟨rfl, rfl, rfl, rfl⟩

/-- A well-behaved remote product (boolean active flag), the concrete C1
witness input. -/
def wRawGood : RawProduct :=
  ⟨.undefined, .num 1, .num 2, .str "b1", .v (.str "A"), .v .undefined, .str "10.0", .undefined,
    .undefined, .v .undefined, .undefined, .bool true, .undefined, .undefined⟩

/-- Witness for the amended C1 at a concrete one-product dataset. -/
theorem reconcile_idempotent_witness :
    (∀ raw ∈ [wRawGood], activeConsistent (transformOdooProduct raw)) ∧
    (syncAllProducts [wRawGood] (syncAllProducts [wRawGood] []).mirror).stats.created = 0 ∧
    (syncAllProducts [wRawGood] (syncAllProducts [wRawGood] []).mirror).stats.updated = 0 ∧
    (syncAllProducts [wRawGood]
        (syncAllProducts [wRawGood] []).mirror).stats.unchanged =
      (transItems [wRawGood]).length ∧
    (transItems [wRawGood]).length = 1 ∧
    (syncAllProducts [wRawGood] (syncAllProducts [wRawGood] []).mirror).mirror =
      (syncAllProducts [wRawGood] []).mirror :=
  ⟨by decide,
   (reconcile_idempotent [wRawGood] (by decide) (by decide)).1,
   (reconcile_idempotent [wRawGood] (by decide) (by decide)).2.1,
   (reconcile_idempotent [wRawGood] (by decide) (by decide)).2.2.1,
   by decide,
   (reconcile_idempotent [wRawGood] (by decide) (by decide)).2.2.2⟩

end IdempotenceClaims
